import Mathlib

/-!
Verification model of the data-lake manager (GerenciadorDataLake,
src/src/desafio2/gerenciador_data_lake.py).

Dates are modelled as day ordinals (an integer count of days), with the
standard civil-calendar conversions; a Python datetime.date value is
represented by its ordinal.  Payloads are modelled by an inductive JSON
value type; file contents are modelled at the JSON-value level (the
json.dump / json.load pair of the standard library is taken as a faithful
serialisation).  The MD5 digest of the content hash is modelled as an
abstract digest parameter applied to the canonical serialisation, since
no claim depends on the internals of MD5 itself.
-/

namespace DataLake

/-! ## Calendar: civil date conversions (model of datetime.date) -/

/-- Leap-year test of the Gregorian calendar. -/
def ehBissexto (ano : Int) : Bool :=
  ano % 4 == 0 && (ano % 100 != 0 || ano % 400 == 0)

/-- Number of days of a month (1-12) in a given year. -/
def diasNoMes (ano mes : Int) : Int :=
  if mes == 2 then (if ehBissexto ano then 29 else 28)
  else if mes == 4 || mes == 6 || mes == 9 || mes == 11 then 30
  else 31

/-- Validity of a (year, month, day) triple for the Python date
constructor: datetime.MINYEAR = 1, datetime.MAXYEAR = 9999. -/
def ehDataValida (ano mes dia : Int) : Bool :=
  1 ≤ ano && ano ≤ 9999 && 1 ≤ mes && mes ≤ 12 && 1 ≤ dia && dia ≤ diasNoMes ano mes

/-- Day ordinal (days since 1970-01-01) of a civil date; the standard
days-from-civil algorithm. -/
def diasDesdeCivil (ano mes dia : Int) : Int :=
  let a := if mes ≤ 2 then ano - 1 else ano
  let era := Int.fdiv a 400
  let aDaEra := a - era * 400
  let diaDoAno := Int.fdiv (153 * (if 2 < mes then mes - 3 else mes + 9) + 2) 5 + dia - 1
  let diaDaEra := aDaEra * 365 + Int.fdiv aDaEra 4 - Int.fdiv aDaEra 100 + diaDoAno
  era * 146097 + diaDaEra - 719468

/-- Civil date (year, month, day) of a day ordinal; the standard
civil-from-days algorithm, inverse of diasDesdeCivil. -/
def civilDeDias (z : Int) : Int × Int × Int :=
  let z := z + 719468
  let era := Int.fdiv z 146097
  let diaDaEra := z - era * 146097
  let aDaEra := Int.fdiv (diaDaEra - Int.fdiv diaDaEra 1460 + Int.fdiv diaDaEra 36524
      - Int.fdiv diaDaEra 146096) 365
  let a := aDaEra + era * 400
  let diaDoAno := diaDaEra - (365 * aDaEra + Int.fdiv aDaEra 4 - Int.fdiv aDaEra 100)
  let mp := Int.fdiv (5 * diaDoAno + 2) 153
  let dia := diaDoAno - Int.fdiv (153 * mp + 2) 5 + 1
  let mes := if mp < 10 then mp + 3 else mp - 9
  (if mes ≤ 2 then a + 1 else a, mes, dia)

/-- Model of the Python date constructor date(ano, mes, dia): the day
ordinal when the triple is a valid calendar date, none when the
constructor raises ValueError. -/
def construirData (ano mes dia : Int) : Option Int :=
  if ehDataValida ano mes dia then some (diasDesdeCivil ano mes dia) else none

/-- Day ordinal of datetime.date.min, which is 0001-01-01: Python date
arithmetic below this bound raises OverflowError. -/
def ordinalMin : Int := diasDesdeCivil 1 1 1

/-- Day ordinal of datetime.date.max, which is 9999-12-31: Python date
arithmetic above this bound raises OverflowError. -/
def ordinalMax : Int := diasDesdeCivil 9999 12 31

/-- Zero-pad to two digits, as the format specifier 02d does. -/
def pad2 (n : Int) : String :=
  if 0 ≤ n && n < 10 then "0" ++ toString n else toString n

/-- Zero-pad to four digits (used by date.isoformat for the year). -/
def pad4 (n : Int) : String :=
  if 0 ≤ n && n < 10 then "000" ++ toString n
  else if 0 ≤ n && n < 100 then "00" ++ toString n
  else if 0 ≤ n && n < 1000 then "0" ++ toString n
  else toString n

/-- Model of date.isoformat() on a day ordinal. -/
def isoData (z : Int) : String :=
  let c := civilDeDias z
  pad4 c.1 ++ "-" ++ pad2 c.2.1 ++ "-" ++ pad2 c.2.2

/-- The list of day ordinals from d1 to d2 inclusive (empty when d2 < d1);
the set of values taken by the while-loop counter of buscar_dados. -/
def intervaloDias (d1 d2 : Int) : List Int :=
  (List.range (d2 + 1 - d1).toNat).map (fun i : Nat => d1 + (i : Int))

/-! ## Python helpers: int(), Path.stem, suffix matching -/

/-- Digits of a decimal string, most significant first. -/
def digitosParaNat (l : List Char) : Nat :=
  l.foldl (fun acc c => acc * 10 + (c.toNat - 48)) 0

/-- Model of the Python int(s) constructor on the strings that occur in
partition segment names: an optional sign followed by a nonempty run of
digits; none models the ValueError raised on anything else. -/
def pyInt (s : String) : Option Int :=
  let nucleo : List Char → Option Int := fun t =>
    if t ≠ [] ∧ t.all Char.isDigit then some (digitosParaNat t : Int) else none
  match s.data with
  | '-' :: resto => (nucleo resto).map (fun n => -n)
  | '+' :: resto => nucleo resto
  | resto => nucleo resto

/-- The text after the first equals sign of a partition directory name
up to the next equals sign, as computed by nome.split(sep)[1] on a name
containing at least one equals sign. -/
def segmentoAposIgual (nome : String) : String :=
  String.mk (((nome.data.dropWhile (fun c => c ≠ '=')).drop 1).takeWhile (fun c => c ≠ '='))

/-- Prefix test on strings, at the character-list level (the behaviour
of str.startswith and of the fixed-prefix globs of the walks). -/
def comecaCom (s prefixo : String) : Bool :=
  prefixo.data.isPrefixOf s.data

/-- Model of Path.stem: the file name without its final suffix, where a
suffix starts at the last dot that is neither the first nor the last
character of the name. -/
def pyStem (nome : String) : String :=
  let rev := nome.data.reverse
  let depois := rev.takeWhile (fun c => c ≠ '.')
  if depois.length == rev.length then nome
  else if depois.length == 0 then nome
  else if depois.length + 1 == rev.length then nome
  else String.mk ((rev.drop (depois.length + 1)).reverse)

/-- Suffix test on strings, at the character-list level (the behaviour of
the *.json glob pattern on a file name). -/
def terminaCom (s sufixo : String) : Bool :=
  sufixo.data.isSuffixOf s.data

theorem terminaCom_append (a b : String) : terminaCom (a ++ b) b = true := by
  simp only [terminaCom, String.data_append, List.isSuffixOf_iff_suffix]
  exact List.suffix_append a.data b.data

theorem mem_intervaloDias {d1 d2 z : Int} (h1 : d1 ≤ z) (h2 : z ≤ d2) :
    z ∈ intervaloDias d1 d2 := by
  have h : ((z - d1).toNat : Int) = z - d1 := Int.toNat_of_nonneg (by omega)
  have hz : z = d1 + ((z - d1).toNat : Int) := by omega
  rw [intervaloDias, hz]
  refine List.mem_map_of_mem _ (List.mem_range.mpr ?_)
  refine (Int.toNat_lt_toNat ?_).mpr ?_ <;> omega

/-! ## JSON values and the canonical serialisation used by the content hash -/

/-- Structured JSON document: the payload type accepted by the ingest
writer (arbitrary nested mapping of JSON-representable values). -/
inductive Json where
  | nulo
  | booleano (b : Bool)
  | inteiro (n : Int)
  | texto (s : String)
  | lista (itens : List Json)
  | objeto (campos : List (String × Json))

/-- Hexadecimal digit character (lowercase), as in the \uXXXX escapes. -/
def hexDigito (n : Nat) : Char :=
  if n < 10 then Char.ofNat (48 + n) else Char.ofNat (87 + n)

/-- Four-digit lowercase hexadecimal rendering. -/
def hex4 (n : Nat) : String :=
  String.mk [hexDigito (n / 4096 % 16), hexDigito (n / 256 % 16),
             hexDigito (n / 16 % 16), hexDigito (n % 16)]

/-- Escaping of one character in a JSON string literal with
ensure_ascii=True (the default used by json.dumps in _calcular_hash and
for tamanho_bytes): named escapes, then \uXXXX with surrogate pairs. -/
def escaparChar (c : Char) : String :=
  if c = '"' then "\\\""
  else if c = '\\' then "\\\\"
  else if c = '\n' then "\\n"
  else if c = '\r' then "\\r"
  else if c = '\t' then "\\t"
  else if c = '\x08' then "\\b"
  else if c = '\x0c' then "\\f"
  else if c.toNat < 32 || 126 < c.toNat then
    if c.toNat < 65536 then "\\u" ++ hex4 c.toNat
    else
      let v := c.toNat - 65536
      "\\u" ++ hex4 (55296 + v / 1024) ++ "\\u" ++ hex4 (56320 + v % 1024)
  else String.singleton c

/-- JSON string literal for a text value. -/
def pyStr (s : String) : String :=
  "\"" ++ String.join (s.data.map escaparChar) ++ "\""

/-- Key comparison used when json.dumps sorts the items of a mapping:
tuple comparison looks at the key first, and keys of a dict are unique,
so only the key is ever compared. -/
def chaveLe (a b : String × Json) : Bool := decide (a.1 ≤ b.1)

mutual

/-- Serialisation of a JSON value in insertion order, with the default
separators and ensure_ascii=True: the model of json.dumps(dados) as used
for the tamanho_bytes envelope field. -/
def renderizar : Json → String
  | .nulo => "null"
  | .booleano b => if b then "true" else "false"
  | .inteiro n => toString n
  | .texto s => pyStr s
  | .lista itens => "[" ++ renderizarLista itens ++ "]"
  | .objeto campos => "\x7b" ++ renderizarCampos campos ++ "\x7d"

/-- Comma-joined serialisation of array items. -/
def renderizarLista : List Json → String
  | [] => ""
  | [x] => renderizar x
  | x :: resto => renderizar x ++ ", " ++ renderizarLista resto

/-- Comma-joined serialisation of object fields, in the given order. -/
def renderizarCampos : List (String × Json) → String
  | [] => ""
  | [(k, v)] => pyStr k ++ ": " ++ renderizar v
  | (k, v) :: resto => pyStr k ++ ": " ++ renderizar v ++ ", " ++ renderizarCampos resto

end

mutual

/-- Canonical form of a JSON value: object fields recursively sorted by
key.  Two payloads are equal as mappings, regardless of key insertion
order, exactly when their canonical forms coincide. -/
def canonizar : Json → Json
  | .nulo => .nulo
  | .booleano b => .booleano b
  | .inteiro n => .inteiro n
  | .texto s => .texto s
  | .lista itens => .lista (canonizarLista itens)
  | .objeto campos => .objeto (List.mergeSort (canonizarCampos campos) chaveLe)

/-- Canonical forms of the items of an array. -/
def canonizarLista : List Json → List Json
  | [] => []
  | x :: resto => canonizar x :: canonizarLista resto

/-- Canonical forms of the values of an object, order preserved. -/
def canonizarCampos : List (String × Json) → List (String × Json)
  | [] => []
  | (k, v) :: resto => (k, canonizar v) :: canonizarCampos resto

end

/-- Comma join with the default item separator of json.dumps. -/
def juntarVirgula : List String → String
  | [] => ""
  | [x] => x
  | x :: resto => x ++ ", " ++ juntarVirgula resto

/-- Serialisation with sort_keys=True: at every object, the fields are
sorted by key before being serialised.  This is the canonical
serialisation that _calcular_hash digests. -/
def dumpsOrdenado : Json → String
  | .nulo => "null"
  | .booleano b => if b then "true" else "false"
  | .inteiro n => toString n
  | .texto s => pyStr s
  | .lista itens =>
      "[" ++ juntarVirgula (itens.attach.map (fun x => dumpsOrdenado x.1)) ++ "]"
  | .objeto campos =>
      "\x7b" ++ juntarVirgula
        (((List.mergeSort campos chaveLe).attach).map
          (fun p => pyStr p.1.1 ++ ": " ++ dumpsOrdenado p.1.2)) ++ "\x7d"
termination_by j => sizeOf j
decreasing_by
  · have h := List.sizeOf_lt_of_mem x.2
    simp only [Json.lista.sizeOf_spec]
    omega
  · have h1 : p.1 ∈ campos := List.mem_mergeSort.mp p.2
    have h2 := List.sizeOf_lt_of_mem h1
    have h3 : sizeOf p.1.2 < sizeOf p.1 := by
      obtain ⟨a, b⟩ := p.1
      simp only [Prod.mk.sizeOf_spec]
      omega
    simp only [Json.objeto.sizeOf_spec]
    omega

/-- Model of _calcular_hash: the digest of the canonical (key-sorted)
serialisation of the payload.  The MD5 digest itself is the abstract
parameter. -/
def calcularHash (digest : String → String) (dados : Json) : String :=
  digest (dumpsOrdenado dados)

/-- Python dict lookup on an association list with unique keys. -/
def objLookup (campos : List (String × Json)) (chave : String) : Option Json :=
  (campos.find? (fun p => p.1 == chave)).map (fun p => p.2)

/-- Python dict item assignment d[chave] = valor: overwrite in place when
the key exists, append otherwise. -/
def dictDefinir {α : Type} (campos : List (String × α)) (chave : String) (valor : α) :
    List (String × α) :=
  if campos.any (fun p => p.1 == chave) then
    campos.map (fun p => if p.1 == chave then (p.1, valor) else p)
  else campos ++ [(chave, valor)]

/-- Python dict.update: item assignment for each pair of the addition,
in order (existing keys win their place, new keys are appended). -/
def dictAtualizar (base extra : List (String × Json)) : List (String × Json) :=
  extra.foldl (fun acc p => dictDefinir acc p.1 p.2) base

/-! ## The canonical serialisation factors through the canonical form -/

theorem canonizarLista_eq_map (l : List Json) : canonizarLista l = l.map canonizar := by
  induction l with
  | nil => rfl
  | cons x r ih => rw [canonizarLista, List.map_cons, ih]

theorem canonizarCampos_eq_map (l : List (String × Json)) :
    canonizarCampos l = l.map (fun p => (p.1, canonizar p.2)) := by
  induction l with
  | nil => rfl
  | cons p r ih =>
    obtain ⟨k, v⟩ := p
    rw [canonizarCampos, List.map_cons, ih]

theorem renderizarLista_eq_juntar (l : List Json) :
    renderizarLista l = juntarVirgula (l.map renderizar) := by
  induction l with
  | nil => rfl
  | cons x r ih =>
    cases r with
    | nil => rfl
    | cons y r2 =>
      rw [show renderizarLista (x :: y :: r2)
            = renderizar x ++ ", " ++ renderizarLista (y :: r2) from rfl]
      rw [ih]
      rfl

theorem renderizarCampos_eq_juntar (l : List (String × Json)) :
    renderizarCampos l =
      juntarVirgula (l.map (fun p => pyStr p.1 ++ ": " ++ renderizar p.2)) := by
  induction l with
  | nil => rfl
  | cons p r ih =>
    obtain ⟨k, v⟩ := p
    cases r with
    | nil => rfl
    | cons q r2 =>
      rw [show renderizarCampos ((k, v) :: q :: r2)
            = pyStr k ++ ": " ++ renderizar v ++ ", " ++ renderizarCampos (q :: r2) from rfl]
      rw [ih]
      rfl

theorem dumpsOrdenado_eq_renderizar (p : Json) :
    dumpsOrdenado p = renderizar (canonizar p) := by
  induction p using dumpsOrdenado.induct with
  | case1 => simp [dumpsOrdenado, canonizar, renderizar]
  | case2 => simp [dumpsOrdenado, canonizar, renderizar]
  | case3 b hb =>
      simp only [Bool.not_eq_true] at hb
      subst hb
      simp [dumpsOrdenado, canonizar, renderizar]
  | case4 n => simp [dumpsOrdenado, canonizar, renderizar]
  | case5 s => simp [dumpsOrdenado, canonizar, renderizar]
  | case6 itens ih =>
      rw [dumpsOrdenado, canonizar, renderizar, renderizarLista_eq_juntar,
        canonizarLista_eq_map]
      rw [List.attach_map_val itens (fun x => dumpsOrdenado x)]
      rw [List.map_map]
      congr 2
      congr 1
      apply List.map_congr_left
      intro x hx
      exact ih ⟨x, hx⟩
  | case7 campos ih =>
      rw [dumpsOrdenado, canonizar, renderizar, renderizarCampos_eq_juntar,
        canonizarCampos_eq_map]
      rw [List.attach_map_val (List.mergeSort campos chaveLe)
        (fun q => pyStr q.1 ++ ": " ++ dumpsOrdenado q.2)]
      rw [← List.map_mergeSort (r := chaveLe) (s := chaveLe)
        (f := fun q => (q.1, canonizar q.2)) (fun a _ b _ => rfl)]
      rw [List.map_map]
      congr 2
      congr 1
      apply List.map_congr_left
      intro q hq
      simp only [Function.comp_apply]
      rw [ih ⟨q, hq⟩]

/-! ## Flat filesystem model for the ingest writer and the range query

A file store is a list of (directory segments, file name, content)
entries; writing a file truncates any previous entry at the same
location and appends the new one.  File contents are modelled at the
JSON level: corrupto stands for a file whose bytes json.load rejects. -/

/-- Content of one stored file. -/
inductive Conteudo where
  | corrupto
  | json (valor : Json)

/-- A file store: directory segments, file name, content per file. -/
abbrev FS : Type := List (List String × String × Conteudo)

/-- Writing a file: any previous file at the same directory and name is
replaced (mode w truncates), and the entry is appended. -/
def fsEscrever (fs : FS) (pasta : List String) (nome : String) (c : Conteudo) : FS :=
  (fs.filter (fun e => !(e.1 == pasta && e.2.1 == nome))) ++ [(pasta, nome, c)]

/-- Reading the file at a directory and name, if present. -/
def fsLer (fs : FS) (pasta : List String) (nome : String) : Option Conteudo :=
  (fs.reverse.find? (fun e => e.1 == pasta && e.2.1 == nome)).map (fun e => e.2.2)

/-- The (name, content) entries of one directory, in store order: the
model of enumerating a directory. -/
def arquivosDaPasta (fs : FS) (pasta : List String) : List (String × Conteudo) :=
  fs.filterMap (fun e => if e.1 == pasta then some (e.2.1, e.2.2) else none)

/-- The zone table of GerenciadorDataLake.__init__: logical zone name to
directory name. -/
def estruturaPastas : List (String × String) :=
  [("raw", "dados_brutos"), ("processed", "dados_processados"),
   ("schemas", "esquemas"), ("metadata", "metadados"),
   ("archive", "arquivo"), ("temp", "temporario")]

/-- Directory name of a zone, looked up in the zone table. -/
def zonaDir (zona : String) : String :=
  ((estruturaPastas.find? (fun p => p.1 == zona)).map (fun p => p.2)).getD ""

/-- Partition directory of an endpoint and business date under the raw
zone, up to the day segment. -/
def caminhoParticaoDia (base : List String) (endpoint : String) (z : Int) : List String :=
  let c := civilDeDias z
  base ++ [zonaDir "raw", endpoint,
    "ano=" ++ toString c.1, "mes=" ++ pad2 c.2.1, "dia=" ++ pad2 c.2.2]

/-- Full partition directory including the store segment. -/
def caminhoParticao (base : List String) (endpoint : String) (z : Int) (idLoja : String) :
    List String :=
  caminhoParticaoDia base endpoint z ++ ["loja=" ++ idLoja]

/-- File name written by the ingest writer. -/
def nomeArquivoRegistro (endpoint idLoja carimbo : String) : String :=
  endpoint ++ "_" ++ idLoja ++ "_" ++ carimbo ++ ".json"

/-- Metadata envelope composed by armazenar_resposta_api before the
caller-supplied extra entries are merged in. -/
def montarEnvelope (digest : String → String) (endpoint : String) (dataNegocio : Int)
    (idLoja carimboIso : String) (dados : Json)
    (metadadosAdicionais : List (String × Json)) : List (String × Json) :=
  dictAtualizar
    [("endpoint", .texto endpoint),
     ("data_negocio", .texto (isoData dataNegocio)),
     ("id_loja", .texto idLoja),
     ("timestamp_ingestao", .texto carimboIso),
     ("versao_esquema", .texto "1.0"),
     ("hash_dados", .texto (calcularHash digest dados)),
     ("tamanho_bytes", .inteiro ((renderizar dados).utf8ByteSize : Int))]
    metadadosAdicionais

/-- Model of armazenar_resposta_api together with _salvar_metadados.  The
two Bool flags inject the possible filesystem failures of the raw-zone
record write and of the metadata-sidecar write; the function returns the
store after all side effects that happened, and either the stored path
or the model of the re-raised exception.  carimbo is the strftime
rendering of datetime.now and carimboIso its isoformat. -/
def armazenarComFalhas (digest : String → String) (base : List String) (fs : FS)
    (endpoint : String) (dados : Json) (dataNegocio : Int) (idLoja : String)
    (metadadosAdicionais : List (String × Json)) (carimbo carimboIso : String)
    (escritaRawOk escritaMetaOk : Bool) : FS × Except Unit String :=
  let particao := caminhoParticao base endpoint dataNegocio idLoja
  let nome := nomeArquivoRegistro endpoint idLoja carimbo
  let caminhoArquivo := String.intercalate "/" (particao ++ [nome])
  let envelope := montarEnvelope digest endpoint dataNegocio idLoja carimboIso dados
      metadadosAdicionais
  let completo := Json.objeto [("metadados", .objeto envelope), ("dados", dados)]
  if escritaRawOk then
    let fs1 := fsEscrever fs particao nome (.json completo)
    let pastaMeta := base ++ [zonaDir "metadata", endpoint]
    let nomeMeta := "meta_" ++ pyStem nome ++ ".json"
    let metaCompleto := dictDefinir
        (dictDefinir envelope "caminho_arquivo" (.texto caminhoArquivo))
        "nome_arquivo" (.texto nome)
    if escritaMetaOk then
      (fsEscrever fs1 pastaMeta nomeMeta (.json (.objeto metaCompleto)), .ok caminhoArquivo)
    else (fs1, .error ())
  else (fs, .error ())

/-- armazenar_resposta_api on the failure-free path. -/
def armazenarRespostaApi (digest : String → String) (base : List String) (fs : FS)
    (endpoint : String) (dados : Json) (dataNegocio : Int) (idLoja : String)
    (metadadosAdicionais : List (String × Json)) (carimbo carimboIso : String) :
    FS × Except Unit String :=
  armazenarComFalhas digest base fs endpoint dados dataNegocio idLoja
    metadadosAdicionais carimbo carimboIso true true

/-- The per-file body of the loop of _ler_arquivos_pasta: a *.json file
is opened; when it fails to parse, or when the parsed document is not an
object (the item assignment of the source path raises TypeError, caught
by the same except handler), the file is skipped with a warning; a
parsed object is returned with the source path attached. -/
def lerArquivoUnico (caminhoPasta : List String) (a : String × Conteudo) : Option Json :=
  if terminaCom a.1 ".json" then
    match a.2 with
    | .corrupto => none
    | .json j =>
      match j with
      | .objeto campos =>
          some (.objeto (dictDefinir campos "_caminho_arquivo"
            (.texto (String.intercalate "/" (caminhoPasta ++ [a.1])))))
      | _ => none
  else none

/-- Model of _ler_arquivos_pasta on the entries of one directory. -/
def lerPasta (caminhoPasta : List String) (arquivos : List (String × Conteudo)) : List Json :=
  arquivos.filterMap (lerArquivoUnico caminhoPasta)

/-- _ler_arquivos_pasta against the file store. -/
def lerArquivosPasta (fs : FS) (pasta : List String) : List Json :=
  lerPasta pasta (arquivosDaPasta fs pasta)

/-- The store subdirectories of a day partition, in enumeration order:
the loja=* glob of buscar_dados. -/
def subPastasLoja (fs : FS) (particao : List String) : List String :=
  ((fs.filterMap (fun e =>
      if particao.length < e.1.length && particao.isPrefixOf e.1 then
        (e.1.drop particao.length).head?
      else none)).dedup).filter (fun n => comecaCom n "loja=")

/-- One iteration of the day loop of buscar_dados: all record files of
the day partition, restricted to one store when a store id is given. -/
def lerDia (fs : FS) (base : List String) (endpoint : String) (idLoja : Option String)
    (z : Int) : List Json :=
  let particao := caminhoParticaoDia base endpoint z
  match idLoja with
  | some l => lerArquivosPasta fs (particao ++ ["loja=" ++ l])
  | none =>
      ((subPastasLoja fs particao).map
        (fun l => lerArquivosPasta fs (particao ++ [l]))).flatten

/-- The while loop of buscar_dados: from the current date up to the end
date inclusive, one day at a time.  The increment data_atual +=
timedelta(days=1) runs at the end of every iteration, including the one
for the end date, so a loop body executed at date.max raises
OverflowError and the whole call errors, discarding the accumulated
records. -/
def buscarDesde (fs : FS) (base : List String) (endpoint : String) (idLoja : Option String)
    (dataAtual dataFim : Int) : Except Unit (List Json) :=
  if _h : dataAtual ≤ dataFim then
    if dataAtual = ordinalMax then .error ()
    else
      match buscarDesde fs base endpoint idLoja (dataAtual + 1) dataFim with
      | .error e => .error e
      | .ok resto => .ok (lerDia fs base endpoint idLoja dataAtual ++ resto)
  else .ok []
termination_by (dataFim + 1 - dataAtual).toNat
decreasing_by
  refine (Int.toNat_lt_toNat ?_).mpr ?_ <;> omega

/-- Model of buscar_dados: the record list when the loop completes, or
the error of the OverflowError raised by the date increment. -/
def buscarDados (fs : FS) (base : List String) (endpoint : String)
    (dataInicio dataFim : Int) (idLoja : Option String) : Except Unit (List Json) :=
  buscarDesde fs base endpoint idLoja dataInicio dataFim

/-! ## Directory-tree model for the statistics aggregator and cleanup -/

/-- A directory tree: files carry a name and a byte size, directories a
name and children. -/
inductive Arvore where
  | arquivo (nome : String) (tamanho : Nat)
  | pasta (nome : String) (filhos : List Arvore)

/-- Name of a tree node. -/
def nomeDe : Arvore → String
  | .arquivo n _ => n
  | .pasta n _ => n

/-- Whether a node is a directory. -/
def ehPasta : Arvore → Bool
  | .arquivo _ _ => false
  | .pasta _ _ => true

/-- Children of a node (none for a file). -/
def filhosDe : Arvore → List Arvore
  | .arquivo _ _ => []
  | .pasta _ filhos => filhos

mutual

/-- Number of files in a subtree, the node included when it is a file:
what rglob("*") plus is_file counts. -/
def contarArquivos : Arvore → Nat
  | .arquivo _ _ => 1
  | .pasta _ filhos => contarArquivosL filhos

/-- Number of files under a forest. -/
def contarArquivosL : List Arvore → Nat
  | [] => 0
  | c :: resto => contarArquivos c + contarArquivosL resto

end

mutual

/-- Total byte size of the files in a subtree. -/
def contarBytes : Arvore → Nat
  | .arquivo _ t => t
  | .pasta _ filhos => contarBytesL filhos

/-- Total byte size of the files under a forest. -/
def contarBytesL : List Arvore → Nat
  | [] => 0
  | c :: resto => contarBytes c + contarBytesL resto

end

mutual

/-- Number of files whose name matches *.json in a subtree: what
rglob with the *.json pattern plus is_file counts. -/
def contarJson : Arvore → Nat
  | .arquivo n _ => if terminaCom n ".json" then 1 else 0
  | .pasta _ filhos => contarJsonL filhos

/-- Number of *.json files under a forest. -/
def contarJsonL : List Arvore → Nat
  | [] => 0
  | c :: resto => contarJson c + contarJsonL resto

end

mutual

/-- Number of files whose name does not match *.json in a subtree. -/
def contarNaoJson : Arvore → Nat
  | .arquivo n _ => if terminaCom n ".json" then 0 else 1
  | .pasta _ filhos => contarNaoJsonL filhos

/-- Number of non-*.json files under a forest. -/
def contarNaoJsonL : List Arvore → Nat
  | [] => 0
  | c :: resto => contarNaoJson c + contarNaoJsonL resto

end

/-- A data lake for the tree-walking operations: the children of each
top-level zone directory, keyed by zone directory name. -/
abbrev Lago : Type := List (String × List Arvore)

/-- The children of one zone directory, when that directory exists. -/
def lagoLer (lago : Lago) (nome : String) : Option (List Arvore) :=
  (lago.find? (fun e => e.1 == nome)).map (fun e => e.2)

/-- Statistics report: the fields of obter_estatisticas_data_lake that
count files (sizes in MB are a float rendering of the same walk). -/
structure Estatisticas where
  totalArquivos : Nat
  zonas : List (String × Nat)
  endpoints : List (String × Nat)

/-- The per-zone loop of obter_estatisticas_data_lake: for each zone of
the table that exists on disk, record the file count of _analisar_pasta
(every file, whatever its extension). -/
def dobrarZonas (lago : Lago) (tabela : List (String × String)) (acc : List (String × Nat)) :
    List (String × Nat) :=
  tabela.foldl (fun acc2 p =>
    match lagoLer lago p.2 with
    | some filhos => dictDefinir acc2 p.2 (contarArquivosL filhos)
    | none => acc2) acc

/-- The raw-zone endpoint loop of obter_estatisticas_data_lake: for each
directory child of the raw zone, record the *.json file count of
_analisar_endpoint under the endpoint name. -/
def dobrarEndpoints (filhos : List Arvore) (acc : List (String × Nat)) : List (String × Nat) :=
  filhos.foldl (fun acc2 c =>
    match c with
    | .pasta n fs => dictDefinir acc2 n (contarJsonL fs)
    | .arquivo _ _ => acc2) acc

/-- Model of obter_estatisticas_data_lake: per-zone file counts from
_analisar_pasta (every file), the per-endpoint breakdown of the raw zone
from _analisar_endpoint (only *.json files, endpoint keys being the
directory children of the raw zone), and the grand total as the sum of
the per-zone counts. -/
def obterEstatisticasDataLake (lago : Lago) : Estatisticas :=
  let zonas := dobrarZonas lago estruturaPastas []
  let endpoints :=
      match lagoLer lago (zonaDir "raw") with
      | some filhos => dobrarEndpoints filhos []
      | none => []
  ⟨(zonas.map (fun p => p.2)).sum, zonas, endpoints⟩

/-! ## Retention cleanup (limpar_dados_antigos)

The monadic functions below model the nested partition walk; the error
value models an exception aborting the whole call (the ValueError raised
by int() on a segment that is not an integer, outside the try block, or
the NotADirectoryError of rmtree on a file).  The ValueError raised by
the date constructor on integer segments that do not form a real
calendar date is inside the try block and the directory is skipped. -/

/-- One dia= matching child of the day-level walk: parse the segment
(int() may raise), build the date (ValueError is caught: skip), compare
with the cutoff, and delete the subtree when strictly older. -/
def limparPassoDia (corte ano mes : Int) (c : Arvore) : Except Unit (Nat × Nat × List Arvore) :=
  match pyInt (segmentoAposIgual (nomeDe c)) with
  | none => .error ()
  | some dia =>
    match construirData ano mes dia with
    | some dataPasta =>
        if dataPasta < corte then
          match c with
          | .pasta _ fs => .ok (contarArquivosL fs, contarBytesL fs, [])
          | .arquivo _ _ => .error ()
        else .ok (0, 0, [c])
    | none => .ok (0, 0, [c])

/-- The day level: children of a mes= directory matching the dia= glob
are parsed and, when the partition date is valid and strictly before the
cutoff, counted and deleted. -/
def limparNivelDia (corte ano mes : Int) : List Arvore → Except Unit (Nat × Nat × List Arvore)
  | [] => .ok (0, 0, [])
  | c :: resto =>
    let passo :=
      if comecaCom (nomeDe c) "dia=" then limparPassoDia corte ano mes c
      else .ok (0, 0, [c])
    match passo with
    | .error e => .error e
    | .ok (n, b, mantidos) =>
      match limparNivelDia corte ano mes resto with
      | .error e => .error e
      | .ok (n2, b2, resto2) => .ok (n + n2, b + b2, mantidos ++ resto2)

/-- The month level: children matching the mes= glob have their segment
parsed (int() may raise) and their own children walked at the day level. -/
def limparNivelMes (corte ano : Int) : List Arvore → Except Unit (Nat × Nat × List Arvore)
  | [] => .ok (0, 0, [])
  | c :: resto =>
    let passo : Except Unit (Nat × Nat × Arvore) :=
      if comecaCom (nomeDe c) "mes=" then
        match pyInt (segmentoAposIgual (nomeDe c)) with
        | none => .error ()
        | some mes =>
          match c with
          | .pasta nm fs =>
            (match limparNivelDia corte ano mes fs with
             | .error e => .error e
             | .ok (n1, b1, fs1) => .ok (n1, b1, Arvore.pasta nm fs1))
          | .arquivo nm t => .ok (0, 0, Arvore.arquivo nm t)
      else .ok (0, 0, c)
    match passo with
    | .error e => .error e
    | .ok (n, b, novo) =>
      match limparNivelMes corte ano resto with
      | .error e => .error e
      | .ok (n2, b2, resto2) => .ok (n + n2, b + b2, novo :: resto2)

/-- The year level, analogous. -/
def limparNivelAno (corte : Int) : List Arvore → Except Unit (Nat × Nat × List Arvore)
  | [] => .ok (0, 0, [])
  | c :: resto =>
    let passo : Except Unit (Nat × Nat × Arvore) :=
      if comecaCom (nomeDe c) "ano=" then
        match pyInt (segmentoAposIgual (nomeDe c)) with
        | none => .error ()
        | some ano =>
          match c with
          | .pasta nm fs =>
            (match limparNivelMes corte ano fs with
             | .error e => .error e
             | .ok (n1, b1, fs1) => .ok (n1, b1, Arvore.pasta nm fs1))
          | .arquivo nm t => .ok (0, 0, Arvore.arquivo nm t)
      else .ok (0, 0, c)
    match passo with
    | .error e => .error e
    | .ok (n, b, novo) =>
      match limparNivelAno corte resto with
      | .error e => .error e
      | .ok (n2, b2, resto2) => .ok (n + n2, b + b2, novo :: resto2)

/-- The endpoint level: every directory child of the raw zone is walked;
file children are skipped by the is_dir test. -/
def limparRaw (corte : Int) : List Arvore → Except Unit (Nat × Nat × List Arvore)
  | [] => .ok (0, 0, [])
  | c :: resto =>
    let passo : Except Unit (Nat × Nat × Arvore) :=
      match c with
      | .pasta nm fs =>
        (match limparNivelAno corte fs with
         | .error e => .error e
         | .ok (n1, b1, fs1) => .ok (n1, b1, Arvore.pasta nm fs1))
      | .arquivo nm t => .ok (0, 0, Arvore.arquivo nm t)
    match passo with
    | .error e => .error e
    | .ok (n, b, novo) =>
      match limparRaw corte resto with
      | .error e => .error e
      | .ok (n2, b2, resto2) => .ok (n + n2, b + b2, novo :: resto2)

/-- Model of limpar_dados_antigos: cutoff is today minus the retention
days, computed before the walk; when the cutoff falls outside the
date.min to date.max range of Python dates, the subtraction (or the
timedelta construction feeding it) raises OverflowError and the whole
call errors before anything is walked.  Otherwise only the raw zone is
walked; the result carries the removed-file count, the freed byte total
(reported by the source as a rounded MB figure of the same
accumulator), the cutoff date in ISO form, and the data lake after
deletion. -/
def limparDadosAntigos (lago : Lago) (hoje diasRetencao : Int) :
    Except Unit (Nat × Nat × String × Lago) :=
  let corte := hoje - diasRetencao
  if corte < ordinalMin ∨ ordinalMax < corte then .error ()
  else
    match lagoLer lago (zonaDir "raw") with
    | none => .error ()
    | some filhos =>
      match limparRaw corte filhos with
      | .error e => .error e
      | .ok (n, b, filhos2) =>
          .ok (n, b, isoData corte, dictDefinir lago (zonaDir "raw") filhos2)

/-! ## Specification-side restatement of cleanup (for the refinement
proof): the removed set described by the spec, as filters and sums

These definitions follow the words of the specification: cleanup deletes
exactly the day-partition subtrees whose parsed date is strictly before
the cutoff, leaves every other child intact, and reports the exact file
count and byte total under the removed partitions. -/

/-- Whether a day-partition child is removed: its name matches the dia=
glob, its segment parses as an integer, and (ano, mes, dia) is a valid
calendar date strictly before the cutoff. -/
def diaRemovido (corte ano mes : Int) (c : Arvore) : Bool :=
  comecaCom (nomeDe c) "dia=" &&
    (match pyInt (segmentoAposIgual (nomeDe c)) with
     | some dia =>
        (match construirData ano mes dia with
         | some dataPasta => decide (dataPasta < corte)
         | none => false)
     | none => false)

/-- Day level, spec side: removed children are the diaRemovido ones; the
counts are the sums of the file counts and byte sizes beneath them. -/
def specNivelDia (corte ano mes : Int) (filhos : List Arvore) : Nat × Nat × List Arvore :=
  let removidos := filhos.filter (fun c => diaRemovido corte ano mes c)
  ((removidos.map (fun c => contarArquivosL (filhosDe c))).sum,
   (removidos.map (fun c => contarBytesL (filhosDe c))).sum,
   filhos.filter (fun c => !diaRemovido corte ano mes c))

/-- Month level, spec side. -/
def specNivelMes (corte ano : Int) : List Arvore → Nat × Nat × List Arvore
  | [] => (0, 0, [])
  | c :: resto =>
    let r := specNivelMes corte ano resto
    if comecaCom (nomeDe c) "mes=" then
      match pyInt (segmentoAposIgual (nomeDe c)) with
      | some mes =>
        (match c with
         | .pasta nm fs =>
            let d := specNivelDia corte ano mes fs
            (d.1 + r.1, d.2.1 + r.2.1, Arvore.pasta nm d.2.2 :: r.2.2)
         | .arquivo nm t => (r.1, r.2.1, Arvore.arquivo nm t :: r.2.2))
      | none => (r.1, r.2.1, c :: r.2.2)
    else (r.1, r.2.1, c :: r.2.2)

/-- Year level, spec side. -/
def specNivelAno (corte : Int) : List Arvore → Nat × Nat × List Arvore
  | [] => (0, 0, [])
  | c :: resto =>
    let r := specNivelAno corte resto
    if comecaCom (nomeDe c) "ano=" then
      match pyInt (segmentoAposIgual (nomeDe c)) with
      | some ano =>
        (match c with
         | .pasta nm fs =>
            let d := specNivelMes corte ano fs
            (d.1 + r.1, d.2.1 + r.2.1, Arvore.pasta nm d.2.2 :: r.2.2)
         | .arquivo nm t => (r.1, r.2.1, Arvore.arquivo nm t :: r.2.2))
      | none => (r.1, r.2.1, c :: r.2.2)
    else (r.1, r.2.1, c :: r.2.2)

/-- Raw-zone level, spec side: every directory child is walked. -/
def specRaw (corte : Int) : List Arvore → Nat × Nat × List Arvore
  | [] => (0, 0, [])
  | c :: resto =>
    let r := specRaw corte resto
    match c with
    | .pasta nm fs =>
        let d := specNivelAno corte fs
        (d.1 + r.1, d.2.1 + r.2.1, Arvore.pasta nm d.2.2 :: r.2.2)
    | .arquivo nm t => (r.1, r.2.1, Arvore.arquivo nm t :: r.2.2)

/-! Well-formedness of the partition tree: every segment that the walk
feeds to int() parses, and every day partition that the walk would
delete is a directory (so rmtree does not raise).  We require the
slightly stronger decidable condition that dia= children are
directories. -/

/-- A dia= matching child parses and is a directory. -/
def bemParticionadoDia (c : Arvore) : Bool :=
  !comecaCom (nomeDe c) "dia=" ||
    ((pyInt (segmentoAposIgual (nomeDe c))).isSome && ehPasta c)

/-- A mes= matching child parses; when it is a directory its children
are well formed at the day level. -/
def bemParticionadoMes (c : Arvore) : Bool :=
  !comecaCom (nomeDe c) "mes=" ||
    ((pyInt (segmentoAposIgual (nomeDe c))).isSome &&
      (filhosDe c).all bemParticionadoDia)

/-- An ano= matching child parses; when it is a directory its children
are well formed at the month level. -/
def bemParticionadoAno (c : Arvore) : Bool :=
  !comecaCom (nomeDe c) "ano=" ||
    ((pyInt (segmentoAposIgual (nomeDe c))).isSome &&
      (filhosDe c).all bemParticionadoMes)

/-- The raw zone is well partitioned: each directory child (endpoint) has
well-formed year-level children. -/
def bemParticionadoRaw (filhos : List Arvore) : Bool :=
  filhos.all (fun c => !ehPasta c || (filhosDe c).all bemParticionadoAno)

theorem specNivelDia_cons (corte ano mes : Int) (c : Arvore) (resto : List Arvore) :
    specNivelDia corte ano mes (c :: resto) =
      (if diaRemovido corte ano mes c then
        (contarArquivosL (filhosDe c) + (specNivelDia corte ano mes resto).1,
         contarBytesL (filhosDe c) + (specNivelDia corte ano mes resto).2.1,
         (specNivelDia corte ano mes resto).2.2)
      else
        ((specNivelDia corte ano mes resto).1,
         (specNivelDia corte ano mes resto).2.1,
         c :: (specNivelDia corte ano mes resto).2.2)) := by
  by_cases h : diaRemovido corte ano mes c = true <;>
    simp [specNivelDia, List.filter_cons, h]

theorem limparNivelDia_eq (corte ano mes : Int) (filhos : List Arvore)
    (h : filhos.all bemParticionadoDia = true) :
    limparNivelDia corte ano mes filhos = .ok (specNivelDia corte ano mes filhos) := by
  induction filhos with
  | nil => rfl
  | cons c resto ih =>
    simp only [List.all_cons, Bool.and_eq_true] at h
    obtain ⟨hc, hresto⟩ := h
    have ihr := ih hresto
    rw [limparNivelDia, specNivelDia_cons, ihr]
    by_cases hdia : comecaCom (nomeDe c) "dia=" = true
    · simp only [bemParticionadoDia, hdia, Bool.not_true, Bool.false_or,
        Bool.and_eq_true] at hc
      obtain ⟨hsome, hpasta⟩ := hc
      obtain ⟨dia, hparse⟩ := Option.isSome_iff_exists.mp hsome
      cases c with
      | arquivo n t => simp [ehPasta] at hpasta
      | pasta nm fs =>
        simp only [hdia, if_true, limparPassoDia, hparse]
        cases hdata : construirData ano mes dia with
        | none =>
            simp [diaRemovido, hdia, hparse, hdata]
        | some z =>
            by_cases hcorte : z < corte
            · simp [diaRemovido, hdia, hparse, hdata, hcorte, filhosDe]
            · simp [diaRemovido, hdia, hparse, hdata, hcorte]
    · simp only [Bool.not_eq_true] at hdia
      simp [hdia, diaRemovido]

theorem limparNivelMes_eq (corte ano : Int) (filhos : List Arvore)
    (h : filhos.all bemParticionadoMes = true) :
    limparNivelMes corte ano filhos = .ok (specNivelMes corte ano filhos) := by
  induction filhos with
  | nil => rfl
  | cons c resto ih =>
    simp only [List.all_cons, Bool.and_eq_true] at h
    obtain ⟨hc, hresto⟩ := h
    have ihr := ih hresto
    rw [limparNivelMes, specNivelMes, ihr]
    by_cases hmes : comecaCom (nomeDe c) "mes=" = true
    · simp only [bemParticionadoMes, hmes, Bool.not_true, Bool.false_or,
        Bool.and_eq_true] at hc
      obtain ⟨hsome, hfilhos⟩ := hc
      obtain ⟨mes, hparse⟩ := Option.isSome_iff_exists.mp hsome
      cases c with
      | arquivo n t => simp [hmes, hparse]
      | pasta nm fs =>
          have hdias := limparNivelDia_eq corte ano mes fs (by simpa [filhosDe] using hfilhos)
          simp [hmes, hparse, hdias]
    · simp only [Bool.not_eq_true] at hmes
      simp [hmes]

theorem limparNivelAno_eq (corte : Int) (filhos : List Arvore)
    (h : filhos.all bemParticionadoAno = true) :
    limparNivelAno corte filhos = .ok (specNivelAno corte filhos) := by
  induction filhos with
  | nil => rfl
  | cons c resto ih =>
    simp only [List.all_cons, Bool.and_eq_true] at h
    obtain ⟨hc, hresto⟩ := h
    have ihr := ih hresto
    rw [limparNivelAno, specNivelAno, ihr]
    by_cases hano : comecaCom (nomeDe c) "ano=" = true
    · simp only [bemParticionadoAno, hano, Bool.not_true, Bool.false_or,
        Bool.and_eq_true] at hc
      obtain ⟨hsome, hfilhos⟩ := hc
      obtain ⟨ano, hparse⟩ := Option.isSome_iff_exists.mp hsome
      cases c with
      | arquivo n t => simp [hano, hparse]
      | pasta nm fs =>
          have hmeses := limparNivelMes_eq corte ano fs (by simpa [filhosDe] using hfilhos)
          simp [hano, hparse, hmeses]
    · simp only [Bool.not_eq_true] at hano
      simp [hano]

theorem limparRaw_eq (corte : Int) (filhos : List Arvore)
    (h : bemParticionadoRaw filhos = true) :
    limparRaw corte filhos = .ok (specRaw corte filhos) := by
  induction filhos with
  | nil => rfl
  | cons c resto ih =>
    simp only [bemParticionadoRaw, List.all_cons, Bool.and_eq_true] at h
    obtain ⟨hc, hresto⟩ := h
    have ihr := ih (by simpa [bemParticionadoRaw] using hresto)
    simp only [limparRaw, specRaw]
    rw [ihr]
    cases c with
    | arquivo n t => simp
    | pasta nm fs =>
        have hanos := limparNivelAno_eq corte fs
          (by simpa [ehPasta, filhosDe] using hc)
        simp [hanos]

theorem limparDadosAntigos_eq (lago : Lago) (raw : List Arvore) (hoje diasRetencao : Int)
    (hmin : ordinalMin ≤ hoje - diasRetencao) (hmax : hoje - diasRetencao ≤ ordinalMax)
    (hraw : lagoLer lago (zonaDir "raw") = some raw)
    (h : bemParticionadoRaw raw = true) :
    limparDadosAntigos lago hoje diasRetencao =
      .ok ((specRaw (hoje - diasRetencao) raw).1,
           (specRaw (hoje - diasRetencao) raw).2.1,
           isoData (hoje - diasRetencao),
           dictDefinir lago (zonaDir "raw") (specRaw (hoje - diasRetencao) raw).2.2) := by
  rw [limparDadosAntigos]
  rw [if_neg (by omega)]
  rw [hraw]
  simp [limparRaw_eq _ _ h]

/-! ## Helper lemmas on the flat file store and the query loop -/

theorem fsLer_fsEscrever (fs : FS) (p : List String) (n : String) (c : Conteudo) :
    fsLer (fsEscrever fs p n c) p n = some c := by
  simp [fsLer, fsEscrever, List.reverse_append, List.find?]

theorem find?_filter_de_imp {α : Type} (l : List α) (pr keep : α → Bool)
    (h : ∀ e, pr e = true → keep e = true) :
    (l.filter keep).find? pr = l.find? pr := by
  induction l with
  | nil => rfl
  | cons e resto ih =>
    by_cases hp : pr e = true
    · rw [List.filter_cons, if_pos (h e hp)]
      simp [List.find?, hp]
    · simp only [Bool.not_eq_true] at hp
      by_cases hk : keep e = true
      · rw [List.filter_cons, if_pos hk]
        simp [List.find?, hp, ih]
      · simp only [Bool.not_eq_true] at hk
        rw [List.filter_cons, if_neg (by simp [hk])]
        simp [List.find?, hp, ih]

theorem filterMap_filter_de_none {α β : Type} (l : List α) (g : α → Option β)
    (keep : α → Bool) (h : ∀ e, keep e = false → g e = none) :
    (l.filter keep).filterMap g = l.filterMap g := by
  induction l with
  | nil => rfl
  | cons e resto ih =>
    by_cases hk : keep e = true
    · rw [List.filter_cons, if_pos hk]
      simp only [List.filterMap_cons, ih]
    · simp only [Bool.not_eq_true] at hk
      rw [List.filter_cons, if_neg (by simp [hk])]
      rw [List.filterMap_cons, h e hk]
      exact ih

theorem fsLer_fsEscrever_ne (fs : FS) (p : List String) (n : String) (c : Conteudo)
    (q : List String) (qn : String) (h : ¬(q = p ∧ qn = n)) :
    fsLer (fsEscrever fs p n c) q qn = fsLer fs q qn := by
  have hpred : ((p, n, c).1 == q && (p, n, c).2.1 == qn) = false := by
    simp only [beq_iff_eq]
    by_cases h1 : p = q <;> by_cases h2 : n = qn <;> simp_all
  simp only [fsLer, fsEscrever, List.reverse_append, List.reverse_singleton,
    List.singleton_append, List.find?, hpred]
  rw [← List.filter_reverse]
  rw [find?_filter_de_imp]
  intro e he
  simp only [Bool.and_eq_true, beq_iff_eq] at he
  obtain ⟨he1, he2⟩ := he
  have hfalso : (e.1 == p && e.2.1 == n) = false := by
    rw [he1, he2]
    by_cases h1 : q = p <;> by_cases h2 : qn = n <;> simp_all
  simp [hfalso]

theorem arquivosDaPasta_append (fs1 fs2 : FS) (p : List String) :
    arquivosDaPasta (fs1 ++ fs2) p = arquivosDaPasta fs1 p ++ arquivosDaPasta fs2 p := by
  simp [arquivosDaPasta, List.filterMap_append]

theorem arquivosDaPasta_fsEscrever_ne (fs : FS) (p : List String) (n : String)
    (c : Conteudo) (q : List String) (h : q ≠ p) :
    arquivosDaPasta (fsEscrever fs p n c) q = arquivosDaPasta fs q := by
  have hpq : (p == q) = false := by
    simp only [beq_eq_false_iff_ne, ne_eq]
    exact fun he => h he.symm
  simp only [fsEscrever, arquivosDaPasta_append]
  have hsing : arquivosDaPasta [(p, n, c)] q = [] := by
    simp [arquivosDaPasta, List.filterMap, hpq]
  rw [hsing, List.append_nil]
  apply filterMap_filter_de_none
  intro e he
  simp only [Bool.not_eq_eq_eq_not, Bool.not_false, Bool.and_eq_true, beq_iff_eq] at he
  simp only [he.1, hpq, Bool.false_eq_true, if_false]

theorem intervaloDias_cons {d1 d2 : Int} (h : d1 ≤ d2) :
    intervaloDias d1 d2 = d1 :: intervaloDias (d1 + 1) d2 := by
  have hn : (d2 + 1 - d1).toNat = (d2 + 1 - (d1 + 1)).toNat + 1 := by omega
  simp only [intervaloDias, hn, List.range_succ_eq_map, List.map_cons, List.map_map,
    Nat.cast_zero, add_zero]
  congr 1
  apply List.map_congr_left
  intro i _
  simp only [Function.comp_apply]
  push_cast
  omega

theorem intervaloDias_vazio {d1 d2 : Int} (h : d2 < d1) : intervaloDias d1 d2 = [] := by
  have hn : (d2 + 1 - d1).toNat = 0 := by omega
  simp [intervaloDias, hn]

theorem buscarDesde_fechado (fs : FS) (base : List String) (endpoint : String)
    (idLoja : Option String) (d1 d2 : Int) (h : d2 ≤ ordinalMax) :
    buscarDesde fs base endpoint idLoja d1 d2 =
      (if d1 ≤ d2 ∧ d2 = ordinalMax then .error ()
       else .ok ((intervaloDias d1 d2).map (lerDia fs base endpoint idLoja)).flatten) := by
  by_cases h12 : d1 ≤ d2
  · by_cases hmaximo : d1 = ordinalMax
    · have hd2 : d2 = ordinalMax := by omega
      rw [buscarDesde, dif_pos h12, if_pos hmaximo, if_pos ⟨h12, hd2⟩]
    · rw [buscarDesde, dif_pos h12, if_neg hmaximo]
      rw [buscarDesde_fechado fs base endpoint idLoja (d1 + 1) d2 h]
      by_cases hd2 : d2 = ordinalMax
      · rw [if_pos ⟨by omega, hd2⟩, if_pos ⟨h12, hd2⟩]
      · rw [if_neg (fun hc => hd2 hc.2), if_neg (fun hc => hd2 hc.2)]
        rw [intervaloDias_cons h12, List.map_cons, List.flatten_cons]
  · rw [buscarDesde, dif_neg h12, if_neg (fun hc => h12 hc.1),
      intervaloDias_vazio (by omega), List.map_nil, List.flatten_nil]
termination_by (d2 + 1 - d1).toNat
decreasing_by
  refine (Int.toNat_lt_toNat ?_).mpr ?_ <;> omega

/-! ## Helper lemmas on dictionaries, the lake, and file counting -/

theorem find?_map_sobrescrever {α : Type} (resto : List (String × α)) (chave z : String)
    (v : α) (h : z ≠ chave) :
    (resto.map (fun p => if p.1 == chave then (p.1, v) else p)).find? (fun p => p.1 == z)
      = resto.find? (fun p => p.1 == z) := by
  induction resto with
  | nil => rfl
  | cons e r ih =>
    rw [List.map_cons]
    by_cases hez : (e.1 == z) = true
    · have he1 : e.1 = z := by simpa [beq_iff_eq] using hez
      have hec : (e.1 == chave) = false := by
        simp only [beq_eq_false_iff_ne, ne_eq, he1]
        exact h
      rw [if_neg (by simp [hec])]
      rw [List.find?_cons_of_pos (p := fun (q : String × α) => q.1 == z) _ hez,
          List.find?_cons_of_pos (p := fun (q : String × α) => q.1 == z) _ hez]
    · have hez2 : ¬((fun (q : String × α) => q.1 == z) e = true) := by simpa using hez
      by_cases hec : (e.1 == chave) = true
      · rw [if_pos hec]
        rw [List.find?_cons_of_neg (p := fun (q : String × α) => q.1 == z) _ (by simpa using hez),
            List.find?_cons_of_neg (p := fun (q : String × α) => q.1 == z) _ hez2]
        exact ih
      · rw [if_neg hec]
        rw [List.find?_cons_of_neg (p := fun (q : String × α) => q.1 == z) _ hez2,
            List.find?_cons_of_neg (p := fun (q : String × α) => q.1 == z) _ hez2]
        exact ih

theorem find?_dictDefinir_ne {α : Type} (d : List (String × α)) (chave z : String) (v : α)
    (h : z ≠ chave) :
    (dictDefinir d chave v).find? (fun p => p.1 == z) = d.find? (fun p => p.1 == z) := by
  rw [dictDefinir]
  by_cases hany : d.any (fun p => p.1 == chave) = true
  · rw [if_pos hany]
    exact find?_map_sobrescrever d chave z v h
  · rw [if_neg hany]
    rw [List.find?_append]
    have hsing : List.find? (fun (p : String × α) => p.1 == z) [(chave, v)] = none := by
      rw [List.find?_cons_of_neg]
      · rfl
      · simp [beq_eq_false_iff_ne, Ne.symm h]
    rw [hsing]
    cases List.find? (fun p => p.1 == z) d <;> rfl

theorem lagoLer_dictDefinir_ne (lago : Lago) (chave z : String) (v : List Arvore)
    (h : z ≠ chave) :
    lagoLer (dictDefinir lago chave v) z = lagoLer lago z := by
  rw [lagoLer, lagoLer, find?_dictDefinir_ne _ _ _ _ h]

mutual

theorem contarDividido : ∀ t : Arvore, contarJson t + contarNaoJson t = contarArquivos t
  | .arquivo n t => by
      by_cases h : terminaCom n ".json" = true <;>
        simp [contarJson, contarNaoJson, contarArquivos, h]
  | .pasta n fs => by
      simpa [contarJson, contarNaoJson, contarArquivos] using contarDivididoL fs

theorem contarDivididoL : ∀ l : List Arvore, contarJsonL l + contarNaoJsonL l = contarArquivosL l
  | [] => rfl
  | c :: resto => by
      have h1 := contarDividido c
      have h2 := contarDivididoL resto
      simp only [contarJsonL, contarNaoJsonL, contarArquivosL]
      omega

end

theorem map_sobrescrever_id {α : Type} (resto : List (String × α)) (chave : String) (v : α)
    (h : ∀ p ∈ resto, p.1 ≠ chave) :
    resto.map (fun p => if p.1 == chave then (p.1, v) else p) = resto := by
  induction resto with
  | nil => rfl
  | cons e r ih =>
    rw [List.map_cons, if_neg (by simp [h e (List.mem_cons_self e r)]),
      ih (fun p hp => h p (List.mem_cons_of_mem _ hp))]

theorem chavesSemRepeticao_dictDefinir {α : Type} (d : List (String × α)) (chave : String)
    (v : α) (h : (d.map Prod.fst).Nodup) :
    ((dictDefinir d chave v).map Prod.fst).Nodup := by
  rw [dictDefinir]
  by_cases hany : d.any (fun p => p.1 == chave) = true
  · rw [if_pos hany]
    have : (d.map (fun p => if p.1 == chave then (p.1, v) else p)).map Prod.fst
        = d.map Prod.fst := by
      rw [List.map_map]
      apply List.map_congr_left
      intro p _
      by_cases hc : p.1 = chave <;> simp [hc]
    rw [this]
    exact h
  · rw [if_neg hany]
    rw [List.map_append]
    simp only [List.map_cons, List.map_nil]
    rw [List.nodup_append]
    refine ⟨h, List.nodup_singleton _, ?_⟩
    intro a ha hb
    simp only [List.mem_singleton] at hb
    subst hb
    obtain ⟨p, hp, hp1⟩ := List.mem_map.mp ha
    exact hany (List.any_eq_true.mpr ⟨p, hp, by simp [hp1]⟩)

theorem soma_valores_dictDefinir {d : List (String × Nat)} (chave : String) (v : Nat)
    (hnodup : (d.map Prod.fst).Nodup) :
    ((dictDefinir d chave v).map (fun p => p.2)).sum ≤ (d.map (fun p => p.2)).sum + v := by
  rw [dictDefinir]
  by_cases hany : d.any (fun p => p.1 == chave) = true
  · rw [if_pos hany]
    clear hany
    induction d with
    | nil => simp
    | cons e resto ih =>
      simp only [List.map_cons, List.nodup_cons] at hnodup
      obtain ⟨hni, hnr⟩ := hnodup
      rw [List.map_cons]
      by_cases hec : (e.1 == chave) = true
      · have he1 : e.1 = chave := by simpa [beq_iff_eq] using hec
        have hrest : ∀ p ∈ resto, p.1 ≠ chave := by
          intro p hp hc
          exact hni (List.mem_map.mpr ⟨p, hp, by rw [hc, he1]⟩)
        rw [if_pos hec, map_sobrescrever_id resto chave v hrest]
        simp only [List.map_cons, List.sum_cons]
        omega
      · rw [if_neg hec]
        have := ih hnr
        simp only [List.map_cons, List.sum_cons]
        omega
  · rw [if_neg hany]
    simp

theorem soma_dobrarEndpoints (filhos : List Arvore) (acc : List (String × Nat))
    (hnodup : (acc.map Prod.fst).Nodup) :
    ((dobrarEndpoints filhos acc).map (fun p => p.2)).sum ≤
      (acc.map (fun p => p.2)).sum + contarJsonL filhos := by
  induction filhos generalizing acc with
  | nil => simp [dobrarEndpoints, contarJsonL]
  | cons c resto ih =>
    cases c with
    | arquivo n t =>
        have := ih acc hnodup
        simp only [dobrarEndpoints, List.foldl_cons] at *
        have hj : contarJsonL (Arvore.arquivo n t :: resto) =
            contarJson (Arvore.arquivo n t) + contarJsonL resto := rfl
        rw [hj]
        omega
    | pasta n fs =>
        have h1 := ih (dictDefinir acc n (contarJsonL fs))
          (chavesSemRepeticao_dictDefinir acc n (contarJsonL fs) hnodup)
        have h2 := soma_valores_dictDefinir (d := acc) n (contarJsonL fs) hnodup
        simp only [dobrarEndpoints, List.foldl_cons] at *
        have hj : contarJsonL (Arvore.pasta n fs :: resto) =
            contarJsonL fs + contarJsonL resto := by
          simp [contarJsonL, contarJson]
        rw [hj]
        omega

theorem find?_dobrarZonas (lago : Lago) (tabela : List (String × String))
    (acc : List (String × Nat)) (z : String)
    (hz : tabela.all (fun p => !(p.2 == z)) = true) :
    (dobrarZonas lago tabela acc).find? (fun p => p.1 == z)
      = acc.find? (fun p => p.1 == z) := by
  induction tabela generalizing acc with
  | nil => rfl
  | cons e resto ih =>
    simp only [List.all_cons, Bool.and_eq_true, Bool.not_eq_eq_eq_not, Bool.not_true,
      beq_eq_false_iff_ne, ne_eq] at hz
    obtain ⟨hne, hresto⟩ := hz
    rw [dobrarZonas, List.foldl_cons]
    cases hlago : lagoLer lago e.2 with
    | none =>
        rw [show List.foldl _ acc resto = dobrarZonas lago resto acc from rfl]
        exact ih acc (by simpa [List.all_eq_true, beq_eq_false_iff_ne] using hresto)
    | some filhos =>
        rw [show List.foldl _ (dictDefinir acc e.2 (contarArquivosL filhos)) resto
              = dobrarZonas lago resto (dictDefinir acc e.2 (contarArquivosL filhos)) from rfl]
        rw [ih _ (by simpa [List.all_eq_true, beq_eq_false_iff_ne] using hresto)]
        exact find?_dictDefinir_ne acc e.2 z (contarArquivosL filhos) (fun hez => hne hez.symm)

/-! ## Helpers for the round-trip and frame theorems -/

theorem terminaCom_append_esq (a : String) {b c : String} (h : terminaCom b c = true) :
    terminaCom (a ++ b) c = true := by
  simp only [terminaCom, String.data_append, List.isSuffixOf_iff_suffix] at h ⊢
  exact h.trans (List.suffix_append a.data b.data)

theorem nomeArquivoRegistro_json (endpoint idLoja carimbo : String) :
    terminaCom (nomeArquivoRegistro endpoint idLoja carimbo) ".json" = true := by
  rw [nomeArquivoRegistro]
  exact terminaCom_append (endpoint ++ "_" ++ idLoja ++ "_" ++ carimbo) ".json"

theorem caminhoParticao_ne_pastaMeta (base : List String) (endpoint : String) (z : Int)
    (idLoja endpoint2 : String) :
    caminhoParticao base endpoint z idLoja ≠ base ++ [zonaDir "metadata", endpoint2] := by
  intro h
  have hlen := congrArg List.length h
  simp [caminhoParticao, caminhoParticaoDia] at hlen

/-- Object field lookup on an arbitrary JSON value (none when the value
is not an object). -/
def campoDe (j : Json) (chave : String) : Option Json :=
  match j with
  | .objeto campos => objLookup campos chave
  | _ => none

/-- Whether a file content parses as JSON at all. -/
def ehJsonValido : Conteudo → Bool
  | .corrupto => false
  | .json _ => true

/-- Whether a file content parses as a JSON object (a mapping). -/
def ehObjetoJson : Conteudo → Bool
  | .json (.objeto _) => true
  | _ => false

/-- The record that _ler_arquivos_pasta returns for one readable file:
the parsed object with the source path attached. -/
def registroLido (caminhoPasta : List String) (a : String × Conteudo) : Json :=
  match a.2 with
  | .json (.objeto campos) =>
      .objeto (dictDefinir campos "_caminho_arquivo"
        (.texto (String.intercalate "/" (caminhoPasta ++ [a.1]))))
  | _ => .nulo

/-- Whether an Option Conteudo is a present corrupt file (used to observe
overwrites without comparing whole documents). -/
def ehCorrupto : Option Conteudo → Bool
  | some .corrupto => true
  | _ => false

theorem lerPasta_eq_filtro (caminhoPasta : List String) (arquivos : List (String × Conteudo)) :
    lerPasta caminhoPasta arquivos =
      (arquivos.filter (fun a => terminaCom a.1 ".json" && ehObjetoJson a.2)).map
        (registroLido caminhoPasta) := by
  induction arquivos with
  | nil => rfl
  | cons a resto ih =>
    obtain ⟨nome, conteudo⟩ := a
    rw [lerPasta] at ih ⊢
    rw [List.filterMap_cons, List.filter_cons]
    by_cases hj : terminaCom nome ".json" = true
    · cases conteudo with
      | corrupto => simp [lerArquivoUnico, hj, ehObjetoJson, ih]
      | json j =>
          cases j <;> simp [lerArquivoUnico, hj, ehObjetoJson, ih, registroLido]
    · simp only [Bool.not_eq_true] at hj
      simp [lerArquivoUnico, hj, ih]

/-! ## Claim theorems -/

/-- C2 (counterexample): the stored path claimed by the specification is
not the one produced by the code.  At the specification's own example
(endpoint getGuestChecks, business date 2024-01-15, store loja_teste),
the ingest writer returns the path with the Portuguese zone directory
dados_brutos and the segments ano=/mes=/dia=/loja=, which differs from
the claimed <base>/raw/.../year=2024/month=01/day=15/store=loja_teste
layout, and the zone directory table is not the six English names. -/
theorem caminho_contraexemplo :
    (armazenarRespostaApi (fun _ => "") ["dados", "data_lake"] [] "getGuestChecks"
        (Json.objeto [("guestCheckId", .texto "test-123")]) (diasDesdeCivil 2024 1 15)
        "loja_teste" [] "20240115_103000" "2024-01-15T10:30:00").2
      = .ok ("dados/data_lake/dados_brutos/getGuestChecks/ano=2024/mes=01/dia=15/" ++
          "loja=loja_teste/getGuestChecks_loja_teste_20240115_103000.json")
    ∧ ("dados/data_lake/dados_brutos/getGuestChecks/ano=2024/mes=01/dia=15/" ++
          "loja=loja_teste/getGuestChecks_loja_teste_20240115_103000.json")
        ≠ ("dados/data_lake/raw/getGuestChecks/year=2024/month=01/day=15/" ++
          "store=loja_teste/getGuestChecks_loja_teste_20240115_103000.json")
    ∧ estruturaPastas.map (fun p => p.2)
        ≠ ["raw", "processed", "schemas", "metadata", "archive", "temp"] := by
  refine ⟨rfl, by decide, by decide⟩

/-- C2 (amended): every store call writes to the bit-exact path
<base>/dados_brutos/<endpoint>/ano=<year>/mes=<MM>/dia=<DD>/loja=<store>/
<endpoint>_<store>_<YYYYMMDD_HHMMSS>.json, and the six zone directory
names are exactly dados_brutos, dados_processados, esquemas, metadados,
arquivo, temporario. -/
theorem caminho_bit_exato (digest : String → String) (base : List String) (fs : FS)
    (endpoint : String) (dados : Json) (dataNegocio : Int) (idLoja : String)
    (metaAd : List (String × Json)) (carimbo carimboIso : String) :
    (armazenarRespostaApi digest base fs endpoint dados dataNegocio idLoja metaAd
        carimbo carimboIso).2
      = .ok (String.intercalate "/" (base ++
          ["dados_brutos", endpoint,
           "ano=" ++ toString (civilDeDias dataNegocio).1,
           "mes=" ++ pad2 (civilDeDias dataNegocio).2.1,
           "dia=" ++ pad2 (civilDeDias dataNegocio).2.2,
           "loja=" ++ idLoja,
           endpoint ++ "_" ++ idLoja ++ "_" ++ carimbo ++ ".json"]))
    ∧ estruturaPastas.map (fun p => p.2)
        = ["dados_brutos", "dados_processados", "esquemas", "metadados",
           "arquivo", "temporario"] := by
  constructor
  · show Except.ok (String.intercalate "/"
        (caminhoParticao base endpoint dataNegocio idLoja ++
          [nomeArquivoRegistro endpoint idLoja carimbo])) = _
    congr 1
    congr 1
    simp [caminhoParticao, caminhoParticaoDia, nomeArquivoRegistro, zonaDir,
      estruturaPastas, List.append_assoc]
  · rfl

/-- C3 (counterexample): when the raw-zone write succeeds but the
metadata-sidecar write fails, the store operation does not still succeed
with the raw path as the claim states: the re-raised exception
propagates and the call errors. -/
theorem armazenar_falha_metadados_contraexemplo :
    (armazenarComFalhas (fun _ => "") ["dados", "data_lake"] [] "getGuestChecks"
        (Json.objeto []) (diasDesdeCivil 2024 1 15) "loja_teste" [] "20240115_103000"
        "2024-01-15T10:30:00" true false).2 = .error () := rfl

/-- C3 (amended): when the raw-zone write succeeds and the sidecar write
fails, the call raises, but the raw-zone record file is on disk (it is
retrievable) and nothing from the call was added to the metadata zone;
when the raw-zone write fails, the whole operation fails, the store is
unchanged, and in particular no sidecar from the call exists in the
metadata zone. -/
theorem armazenar_falhas (digest : String → String) (base : List String) (fs : FS)
    (endpoint : String) (dados : Json) (dataNegocio : Int) (idLoja : String)
    (metaAd : List (String × Json)) (carimbo carimboIso : String) :
    ((armazenarComFalhas digest base fs endpoint dados dataNegocio idLoja metaAd
        carimbo carimboIso true false).2 = .error ()
    ∧ fsLer (armazenarComFalhas digest base fs endpoint dados dataNegocio idLoja metaAd
          carimbo carimboIso true false).1
        (caminhoParticao base endpoint dataNegocio idLoja)
        (nomeArquivoRegistro endpoint idLoja carimbo)
      = some (.json (.objeto
          [("metadados", .objeto (montarEnvelope digest endpoint dataNegocio idLoja
              carimboIso dados metaAd)),
           ("dados", dados)]))
    ∧ arquivosDaPasta (armazenarComFalhas digest base fs endpoint dados dataNegocio idLoja
          metaAd carimbo carimboIso true false).1
        (base ++ [zonaDir "metadata", endpoint])
      = arquivosDaPasta fs (base ++ [zonaDir "metadata", endpoint]))
    ∧ ∀ escritaMetaOk,
        (armazenarComFalhas digest base fs endpoint dados dataNegocio idLoja metaAd
            carimbo carimboIso false escritaMetaOk).1 = fs
      ∧ (armazenarComFalhas digest base fs endpoint dados dataNegocio idLoja metaAd
            carimbo carimboIso false escritaMetaOk).2 = .error () := by
  refine ⟨⟨rfl, ?_, ?_⟩, fun escritaMetaOk => ⟨rfl, rfl⟩⟩
  · exact fsLer_fsEscrever fs _ _ _
  · exact arquivosDaPasta_fsEscrever_ne fs _ _ _ _
      (fun h => caminhoParticao_ne_pastaMeta base endpoint dataNegocio idLoja endpoint h.symm)

/-- C3 (witness): the amended statement instantiated at the
specification's example input. -/
theorem armazenar_falhas_witness :
    ((armazenarComFalhas (fun _ => "") ["dados"] [] "getGuestChecks" (Json.objeto [])
        (diasDesdeCivil 2024 1 15) "loja_teste" [] "ts" "iso" true false).2 = .error ()
    ∧ fsLer (armazenarComFalhas (fun _ => "") ["dados"] [] "getGuestChecks" (Json.objeto [])
          (diasDesdeCivil 2024 1 15) "loja_teste" [] "ts" "iso" true false).1
        (caminhoParticao ["dados"] "getGuestChecks" (diasDesdeCivil 2024 1 15) "loja_teste")
        (nomeArquivoRegistro "getGuestChecks" "loja_teste" "ts")
      = some (.json (.objeto
          [("metadados", .objeto (montarEnvelope (fun _ => "") "getGuestChecks"
              (diasDesdeCivil 2024 1 15) "loja_teste" "iso" (Json.objeto []) [])),
           ("dados", Json.objeto [])]))
    ∧ arquivosDaPasta (armazenarComFalhas (fun _ => "") ["dados"] [] "getGuestChecks"
          (Json.objeto []) (diasDesdeCivil 2024 1 15) "loja_teste" [] "ts" "iso"
          true false).1
        (["dados"] ++ [zonaDir "metadata", "getGuestChecks"])
      = arquivosDaPasta [] (["dados"] ++ [zonaDir "metadata", "getGuestChecks"]))
    ∧ ∀ escritaMetaOk,
        (armazenarComFalhas (fun _ => "") ["dados"] [] "getGuestChecks" (Json.objeto [])
            (diasDesdeCivil 2024 1 15) "loja_teste" [] "ts" "iso" false escritaMetaOk).1 = []
      ∧ (armazenarComFalhas (fun _ => "") ["dados"] [] "getGuestChecks" (Json.objeto [])
            (diasDesdeCivil 2024 1 15) "loja_teste" [] "ts" "iso" false escritaMetaOk).2
          = .error () :=
  armazenar_falhas (fun _ => "") ["dados"] [] "getGuestChecks" (Json.objeto [])
    (diasDesdeCivil 2024 1 15) "loja_teste" [] "ts" "iso"

/-- C7 (counterexample): a one-day range at date.max is a valid query
over empty directories, so the claim requires the empty union to be
returned; instead the loop body at date.max runs its increment past
date.max and the call raises OverflowError, returning nothing. -/
theorem buscar_estouro_contraexemplo :
    buscarDados [] ["dados"] "getGuestChecks" ordinalMax ordinalMax none = .error () := by
  rw [buscarDados, buscarDesde_fechado _ _ _ _ _ _ (le_refl _),
    if_pos ⟨le_refl _, rfl⟩]

/-- C7 (amended): for an end date no later than date.max (every Python
date), the range query returns the day-by-day union over the inclusive
interval from the start date to the end date, except that a non-empty
range ending exactly at date.max raises OverflowError from the loop
increment; a reversed range (start after end) never enters the loop and
yields the empty result rather than an error. -/
theorem buscar_intervalo_inclusivo (fs : FS) (base : List String) (endpoint : String)
    (idLoja : Option String) (d1 d2 : Int) (hd2 : d2 ≤ ordinalMax) :
    buscarDados fs base endpoint d1 d2 idLoja
      = (if d1 ≤ d2 ∧ d2 = ordinalMax then .error ()
         else .ok ((intervaloDias d1 d2).map (lerDia fs base endpoint idLoja)).flatten)
    ∧ (d2 < d1 → buscarDados fs base endpoint d1 d2 idLoja = .ok [])
    ∧ (d1 ≤ d2 → d2 = ordinalMax → buscarDados fs base endpoint d1 d2 idLoja = .error ()) := by
  refine ⟨buscarDesde_fechado fs base endpoint idLoja d1 d2 hd2, ?_, ?_⟩
  · intro h
    rw [buscarDados, buscarDesde_fechado fs base endpoint idLoja d1 d2 hd2,
      if_neg (fun hc => by omega), intervaloDias_vazio h, List.map_nil, List.flatten_nil]
  · intro h12 hfim
    rw [buscarDados, buscarDesde_fechado fs base endpoint idLoja d1 d2 hd2,
      if_pos ⟨h12, hfim⟩]

/-- C7 (witness): the amended query characterisation instantiated at a
concrete reversed range, giving the empty result. -/
theorem buscar_intervalo_inclusivo_witness :
    ((3 : Int) ≤ ordinalMax)
    ∧ (buscarDados [] ["dados"] "getGuestChecks" 5 3 none
      = (if (5 : Int) ≤ 3 ∧ (3 : Int) = ordinalMax then .error ()
         else .ok ((intervaloDias 5 3).map (lerDia [] ["dados"] "getGuestChecks" none)).flatten)
    ∧ ((3 : Int) < 5 → buscarDados [] ["dados"] "getGuestChecks" 5 3 none = .ok [])
    ∧ ((5 : Int) ≤ 3 → (3 : Int) = ordinalMax →
        buscarDados [] ["dados"] "getGuestChecks" 5 3 none = .error ())) :=
  ⟨by decide, buscar_intervalo_inclusivo [] ["dados"] "getGuestChecks" none 5 3 (by decide)⟩

/-- C9 (counterexample): a store call whose computed timestamp-based file
name already exists on disk overwrites the existing file: before the
call the path holds a corrupt file, after the call it holds the new
record, so an existing file was overwritten, contradicting the claim
that every write targets a new file. -/
theorem sobrescrita_contraexemplo :
    ehCorrupto (fsLer
        [(["dados", "data_lake", "dados_brutos", "getGuestChecks", "ano=2024", "mes=01",
            "dia=15", "loja=loja_teste"],
          "getGuestChecks_loja_teste_20240115_103000.json", Conteudo.corrupto)]
        ["dados", "data_lake", "dados_brutos", "getGuestChecks", "ano=2024", "mes=01",
          "dia=15", "loja=loja_teste"]
        "getGuestChecks_loja_teste_20240115_103000.json") = true
    ∧ ehCorrupto (fsLer
        (armazenarRespostaApi (fun _ => "") ["dados", "data_lake"]
          [(["dados", "data_lake", "dados_brutos", "getGuestChecks", "ano=2024", "mes=01",
              "dia=15", "loja=loja_teste"],
            "getGuestChecks_loja_teste_20240115_103000.json", Conteudo.corrupto)]
          "getGuestChecks" (Json.objeto []) (diasDesdeCivil 2024 1 15) "loja_teste" []
          "20240115_103000" "2024-01-15T10:30:00").1
        ["dados", "data_lake", "dados_brutos", "getGuestChecks", "ano=2024", "mes=01",
          "dia=15", "loja=loja_teste"]
        "getGuestChecks_loja_teste_20240115_103000.json") = false :=
  ⟨rfl, rfl⟩

/-- C9 (amended): a store call writes the record to the timestamp-derived
name in the partition and the sidecar to the metadata zone, truncating
and overwriting whatever file already exists at those two exact
locations; a file at any other location is never modified. -/
theorem armazenar_quadro (digest : String → String) (base : List String) (fs : FS)
    (endpoint : String) (dados : Json) (dataNegocio : Int) (idLoja : String)
    (metaAd : List (String × Json)) (carimbo carimboIso : String) :
    fsLer (armazenarRespostaApi digest base fs endpoint dados dataNegocio idLoja metaAd
          carimbo carimboIso).1
        (caminhoParticao base endpoint dataNegocio idLoja)
        (nomeArquivoRegistro endpoint idLoja carimbo)
      = some (.json (.objeto
          [("metadados", .objeto (montarEnvelope digest endpoint dataNegocio idLoja
              carimboIso dados metaAd)),
           ("dados", dados)]))
    ∧ ∀ q qn, ¬(q = caminhoParticao base endpoint dataNegocio idLoja
                  ∧ qn = nomeArquivoRegistro endpoint idLoja carimbo) →
        ¬(q = base ++ [zonaDir "metadata", endpoint]
            ∧ qn = "meta_" ++ pyStem (nomeArquivoRegistro endpoint idLoja carimbo)
                ++ ".json") →
        fsLer (armazenarRespostaApi digest base fs endpoint dados dataNegocio idLoja metaAd
            carimbo carimboIso).1 q qn = fsLer fs q qn := by
  constructor
  · rw [show (armazenarRespostaApi digest base fs endpoint dados dataNegocio idLoja metaAd
          carimbo carimboIso).1
        = fsEscrever
            (fsEscrever fs (caminhoParticao base endpoint dataNegocio idLoja)
              (nomeArquivoRegistro endpoint idLoja carimbo)
              (.json (.objeto
                [("metadados", .objeto (montarEnvelope digest endpoint dataNegocio idLoja
                    carimboIso dados metaAd)),
                 ("dados", dados)])))
            (base ++ [zonaDir "metadata", endpoint])
            ("meta_" ++ pyStem (nomeArquivoRegistro endpoint idLoja carimbo) ++ ".json")
            (.json (.objeto (dictDefinir
              (dictDefinir (montarEnvelope digest endpoint dataNegocio idLoja carimboIso
                  dados metaAd)
                "caminho_arquivo"
                (.texto (String.intercalate "/"
                  (caminhoParticao base endpoint dataNegocio idLoja ++
                    [nomeArquivoRegistro endpoint idLoja carimbo]))))
              "nome_arquivo" (.texto (nomeArquivoRegistro endpoint idLoja carimbo)))))
      from rfl]
    rw [fsLer_fsEscrever_ne]
    · exact fsLer_fsEscrever fs _ _ _
    · intro h
      exact caminhoParticao_ne_pastaMeta base endpoint dataNegocio idLoja endpoint h.1
  · intro q qn h1 h2
    rw [show (armazenarRespostaApi digest base fs endpoint dados dataNegocio idLoja metaAd
          carimbo carimboIso).1
        = fsEscrever
            (fsEscrever fs (caminhoParticao base endpoint dataNegocio idLoja)
              (nomeArquivoRegistro endpoint idLoja carimbo)
              (.json (.objeto
                [("metadados", .objeto (montarEnvelope digest endpoint dataNegocio idLoja
                    carimboIso dados metaAd)),
                 ("dados", dados)])))
            (base ++ [zonaDir "metadata", endpoint])
            ("meta_" ++ pyStem (nomeArquivoRegistro endpoint idLoja carimbo) ++ ".json")
            (.json (.objeto (dictDefinir
              (dictDefinir (montarEnvelope digest endpoint dataNegocio idLoja carimboIso
                  dados metaAd)
                "caminho_arquivo"
                (.texto (String.intercalate "/"
                  (caminhoParticao base endpoint dataNegocio idLoja ++
                    [nomeArquivoRegistro endpoint idLoja carimbo]))))
              "nome_arquivo" (.texto (nomeArquivoRegistro endpoint idLoja carimbo)))))
      from rfl]
    rw [fsLer_fsEscrever_ne _ _ _ _ _ _ h2, fsLer_fsEscrever_ne _ _ _ _ _ _ h1]

/-- C9 (witness): the amended frame statement instantiated at the empty
store and a distinct query location. -/
theorem armazenar_quadro_witness :
    fsLer (armazenarRespostaApi (fun _ => "") ["dados"] [] "getGuestChecks"
          (Json.objeto []) (diasDesdeCivil 2024 1 15) "loja_teste" [] "ts" "iso").1
        (caminhoParticao ["dados"] "getGuestChecks" (diasDesdeCivil 2024 1 15) "loja_teste")
        (nomeArquivoRegistro "getGuestChecks" "loja_teste" "ts")
      = some (.json (.objeto
          [("metadados", .objeto (montarEnvelope (fun _ => "") "getGuestChecks"
              (diasDesdeCivil 2024 1 15) "loja_teste" "iso" (Json.objeto []) [])),
           ("dados", Json.objeto [])]))
    ∧ ∀ q qn, ¬(q = caminhoParticao ["dados"] "getGuestChecks" (diasDesdeCivil 2024 1 15)
                  "loja_teste"
                  ∧ qn = nomeArquivoRegistro "getGuestChecks" "loja_teste" "ts") →
        ¬(q = ["dados"] ++ [zonaDir "metadata", "getGuestChecks"]
            ∧ qn = "meta_" ++ pyStem (nomeArquivoRegistro "getGuestChecks" "loja_teste" "ts")
                ++ ".json") →
        fsLer (armazenarRespostaApi (fun _ => "") ["dados"] [] "getGuestChecks"
            (Json.objeto []) (diasDesdeCivil 2024 1 15) "loja_teste" [] "ts" "iso").1 q qn
          = fsLer [] q qn :=
  armazenar_quadro (fun _ => "") ["dados"] [] "getGuestChecks" (Json.objeto [])
    (diasDesdeCivil 2024 1 15) "loja_teste" [] "ts" "iso"

theorem lerArquivosPasta_apos_escritas (fs : FS) (particao : List String) (nome : String)
    (pastaMeta : List String) (nomeMeta : String) (cMeta : Conteudo)
    (campos : List (String × Json))
    (hne : particao ≠ pastaMeta) (hnome : terminaCom nome ".json" = true) :
    Json.objeto (dictDefinir campos "_caminho_arquivo"
        (.texto (String.intercalate "/" (particao ++ [nome]))))
      ∈ lerArquivosPasta
          (fsEscrever (fsEscrever fs particao nome (.json (.objeto campos)))
            pastaMeta nomeMeta cMeta) particao := by
  rw [lerArquivosPasta, arquivosDaPasta_fsEscrever_ne _ _ _ _ _ hne]
  rw [show fsEscrever fs particao nome (Conteudo.json (Json.objeto campos))
      = fs.filter (fun e => !(e.1 == particao && e.2.1 == nome))
          ++ [(particao, nome, Conteudo.json (Json.objeto campos))] from rfl]
  rw [arquivosDaPasta_append, lerPasta, List.filterMap_append]
  apply List.mem_append_right
  have hsing : arquivosDaPasta [(particao, nome, Conteudo.json (Json.objeto campos))] particao
      = [(nome, Conteudo.json (Json.objeto campos))] := by
    simp [arquivosDaPasta]
  rw [hsing]
  simp [List.filterMap, lerArquivoUnico, hnome]

/-- C1 (counterexample): storing at business date date.max succeeds and
returns the stored path, yet querying the one-day range consisting of
that same date raises OverflowError from the loop increment instead of
returning the stored record, so the round trip fails for every range
whose end is date.max. -/
theorem roundtrip_contraexemplo :
    (armazenarRespostaApi (fun _ => "") ["dados"] [] "getGuestChecks"
        (Json.objeto []) ordinalMax "loja_teste" [] "ts" "iso").2
      = .ok (String.intercalate "/"
          (caminhoParticao ["dados"] "getGuestChecks" ordinalMax "loja_teste"
            ++ [nomeArquivoRegistro "getGuestChecks" "loja_teste" "ts"]))
    ∧ buscarDados
        (armazenarRespostaApi (fun _ => "") ["dados"] [] "getGuestChecks"
          (Json.objeto []) ordinalMax "loja_teste" [] "ts" "iso").1
        ["dados"] "getGuestChecks" ordinalMax ordinalMax (some "loja_teste")
      = .error () := by
  refine ⟨rfl, ?_⟩
  rw [buscarDados, buscarDesde_fechado _ _ _ _ _ _ (le_refl _), if_pos ⟨le_refl _, rfl⟩]

/-- C1 (amended): for a range whose end date is strictly before date.max,
storing a payload and then querying the same endpoint with a date range
containing the business date and the same store id succeeds and returns
a record whose dados field deep-equals the original payload; a range
ending at date.max instead raises OverflowError from the loop
increment. -/
theorem armazenar_buscar_roundtrip (digest : String → String) (base : List String) (fs : FS)
    (endpoint : String) (dados : Json) (dataNegocio : Int) (idLoja : String)
    (metaAd : List (String × Json)) (carimbo carimboIso : String) (d1 d2 : Int)
    (h1 : d1 ≤ dataNegocio) (h2 : dataNegocio ≤ d2) (h3 : d2 < ordinalMax) :
    ∃ resultados, buscarDados
        (armazenarRespostaApi digest base fs endpoint dados dataNegocio idLoja metaAd
          carimbo carimboIso).1
        base endpoint d1 d2 (some idLoja) = .ok resultados
    ∧ ∃ registro ∈ resultados, campoDe registro "dados" = some dados := by
  have hmem := lerArquivosPasta_apos_escritas fs
    (caminhoParticao base endpoint dataNegocio idLoja)
    (nomeArquivoRegistro endpoint idLoja carimbo)
    (base ++ [zonaDir "metadata", endpoint])
    ("meta_" ++ pyStem (nomeArquivoRegistro endpoint idLoja carimbo) ++ ".json")
    (.json (.objeto (dictDefinir
      (dictDefinir (montarEnvelope digest endpoint dataNegocio idLoja carimboIso dados metaAd)
        "caminho_arquivo"
        (.texto (String.intercalate "/"
          (caminhoParticao base endpoint dataNegocio idLoja ++
            [nomeArquivoRegistro endpoint idLoja carimbo]))))
      "nome_arquivo" (.texto (nomeArquivoRegistro endpoint idLoja carimbo)))))
    [("metadados", .objeto (montarEnvelope digest endpoint dataNegocio idLoja carimboIso
        dados metaAd)),
     ("dados", dados)]
    (caminhoParticao_ne_pastaMeta base endpoint dataNegocio idLoja endpoint)
    (nomeArquivoRegistro_json endpoint idLoja carimbo)
  refine ⟨((intervaloDias d1 d2).map (lerDia
      (armazenarRespostaApi digest base fs endpoint dados dataNegocio idLoja metaAd
        carimbo carimboIso).1 base endpoint (some idLoja))).flatten, ?_, ?_⟩
  · rw [buscarDados, buscarDesde_fechado _ _ _ _ _ _ (le_of_lt h3),
      if_neg (fun hc => by omega)]
  refine ⟨Json.objeto (dictDefinir
      [("metadados", .objeto (montarEnvelope digest endpoint dataNegocio idLoja carimboIso
          dados metaAd)),
       ("dados", dados)]
      "_caminho_arquivo"
      (.texto (String.intercalate "/"
        (caminhoParticao base endpoint dataNegocio idLoja ++
          [nomeArquivoRegistro endpoint idLoja carimbo])))), ?_, ?_⟩
  · apply List.mem_flatten.mpr
    refine ⟨_, List.mem_map_of_mem (lerDia
        (armazenarRespostaApi digest base fs endpoint dados dataNegocio idLoja metaAd
          carimbo carimboIso).1 base endpoint (some idLoja))
        (mem_intervaloDias h1 h2), ?_⟩
    exact hmem
  · simp [campoDe, dictDefinir, objLookup, List.find?]

/-- C1 (witness): the amended round trip instantiated at the
specification's example, with the one-day range equal to the business
date, well before date.max. -/
theorem armazenar_buscar_roundtrip_witness :
    ((diasDesdeCivil 2024 1 15 : Int) ≤ diasDesdeCivil 2024 1 15
      ∧ (diasDesdeCivil 2024 1 15 : Int) < ordinalMax)
    ∧ (∃ resultados, buscarDados
        (armazenarRespostaApi (fun _ => "") ["dados", "data_lake"] [] "getGuestChecks"
          (Json.objeto [("guestCheckId", .texto "test-123")]) (diasDesdeCivil 2024 1 15)
          "loja_teste" [] "20240115_103000" "2024-01-15T10:30:00").1
        ["dados", "data_lake"] "getGuestChecks"
        (diasDesdeCivil 2024 1 15) (diasDesdeCivil 2024 1 15) (some "loja_teste")
        = .ok resultados
      ∧ ∃ registro ∈ resultados,
          campoDe registro "dados" = some (Json.objeto [("guestCheckId", .texto "test-123")])) :=
  ⟨⟨le_refl _, by decide⟩,
   armazenar_buscar_roundtrip (fun _ => "") ["dados", "data_lake"] [] "getGuestChecks"
     (Json.objeto [("guestCheckId", .texto "test-123")]) (diasDesdeCivil 2024 1 15)
     "loja_teste" [] "20240115_103000" "2024-01-15T10:30:00"
     (diasDesdeCivil 2024 1 15) (diasDesdeCivil 2024 1 15) (le_refl _) (le_refl _)
     (by decide)⟩

/-- C5: the content hash is deterministic, and two payloads that are
equal as mappings regardless of key insertion order, which is to say
with the same recursively key-sorted canonical form, hash identically,
because the hash is a digest of the key-sorted canonical serialisation
of the payload alone. -/
theorem hash_determinista (digest : String → String) (p1 p2 : Json)
    (h : canonizar p1 = canonizar p2) :
    calcularHash digest p1 = calcularHash digest p1
    ∧ calcularHash digest p1 = calcularHash digest p2 := by
  refine ⟨rfl, ?_⟩
  rw [calcularHash, calcularHash, dumpsOrdenado_eq_renderizar,
    dumpsOrdenado_eq_renderizar, h]

theorem mergeSort_par (a b : String × Json) :
    List.mergeSort [a, b] chaveLe = if chaveLe a b then [a, b] else [b, a] := by
  rw [List.mergeSort]
  simp [List.splitInTwo, List.mergeSort, List.merge]

/-- C5 (witness): two concrete payloads with reordered keys at both
nesting levels have the same canonical form and the same hash. -/
theorem hash_determinista_witness :
    canonizar (Json.objeto [("b", .inteiro 1),
        ("a", .objeto [("y", .texto "x"), ("z", .nulo)])])
      = canonizar (Json.objeto [("a", .objeto [("z", .nulo), ("y", .texto "x")]),
        ("b", .inteiro 1)])
    ∧ calcularHash (fun s => s) (Json.objeto [("b", .inteiro 1),
        ("a", .objeto [("y", .texto "x"), ("z", .nulo)])])
      = calcularHash (fun s => s) (Json.objeto [("a", .objeto [("z", .nulo),
        ("y", .texto "x")]), ("b", .inteiro 1)]) := by
  have h : canonizar (Json.objeto [("b", .inteiro 1),
        ("a", .objeto [("y", .texto "x"), ("z", .nulo)])])
      = canonizar (Json.objeto [("a", .objeto [("z", .nulo), ("y", .texto "x")]),
        ("b", .inteiro 1)]) := by
    simp only [canonizar, canonizarCampos, mergeSort_par, chaveLe]
    rw [if_neg (by simp; decide), if_pos (by simp; decide), if_pos (by simp; decide),
      if_neg (by simp; decide)]
  exact ⟨h, (hash_determinista (fun s => s) _ _ h).2⟩

/-- C6 (counterexample): a partition directory holding one file that
parses as JSON (a top-level array) and one file that does not parse
returns no records at all, although one parseable file is present: the
parsed array is also skipped (the path-attachment item assignment raises
TypeError, caught by the same handler), so the query does not return
exactly the records of the parseable files. -/
theorem ler_pasta_contraexemplo :
    lerPasta ["p"] [("a.json", .json (.lista [.inteiro 1])), ("b.json", .corrupto)] = []
    ∧ ([("a.json", Conteudo.json (Json.lista [.inteiro 1])),
        ("b.json", Conteudo.corrupto)].filter
          (fun a => ehJsonValido a.2)).length = 1 :=
  ⟨rfl, rfl⟩

/-- C6 (amended): the scan of a partition directory returns exactly the
records of the files that parse as JSON objects, each with its source
path attached; a file that fails to parse, and a parseable file whose
document is not an object, are skipped with a warning, and no file ever
aborts the scan (the per-file handler yields no record instead of
raising). -/
theorem ler_pasta_ignora_corruptos (caminhoPasta : List String)
    (arquivos : List (String × Conteudo)) :
    lerPasta caminhoPasta arquivos =
      (arquivos.filter (fun a => terminaCom a.1 ".json" && ehObjetoJson a.2)).map
        (registroLido caminhoPasta)
    ∧ ∀ a ∈ arquivos, ehJsonValido a.2 = false →
        lerArquivoUnico caminhoPasta a = none := by
  refine ⟨lerPasta_eq_filtro caminhoPasta arquivos, ?_⟩
  intro a _ hcorrupto
  obtain ⟨nome, conteudo⟩ := a
  cases conteudo with
  | corrupto =>
      rw [lerArquivoUnico]
      by_cases hj : terminaCom nome ".json" = true <;> simp [hj]
  | json j => simp [ehJsonValido] at hcorrupto

/-- C6 (witness): the amended scan contract instantiated at a concrete
directory holding a valid record, a corrupt file, and a non-JSON file. -/
theorem ler_pasta_ignora_corruptos_witness :
    lerPasta ["q"] [("r.json", .json (.objeto [("k", .nulo)])), ("c.json", .corrupto),
        ("n.txt", .json .nulo)] =
      ([("r.json", Conteudo.json (Json.objeto [("k", Json.nulo)])),
        ("c.json", Conteudo.corrupto), ("n.txt", Conteudo.json Json.nulo)].filter
          (fun a => terminaCom a.1 ".json" && ehObjetoJson a.2)).map
        (registroLido ["q"])
    ∧ ∀ a ∈ [("r.json", Conteudo.json (Json.objeto [("k", Json.nulo)])),
        ("c.json", Conteudo.corrupto), ("n.txt", Conteudo.json Json.nulo)],
        ehJsonValido a.2 = false → lerArquivoUnico ["q"] a = none :=
  ler_pasta_ignora_corruptos ["q"]
    [("r.json", .json (.objeto [("k", .nulo)])), ("c.json", .corrupto),
     ("n.txt", .json .nulo)]

/-- C4 (counterexample): a retention of a million days pushes the cutoff
(today minus the retention) below date.min, so the subtraction that
computes data_corte raises OverflowError and the cleanup fails before
touching anything, even on an empty raw zone; the claim instead requires
every cleanup run to delete exactly the out-of-retention partitions. -/
theorem limpeza_estouro_contraexemplo :
    limparDadosAntigos [("dados_brutos", [])] (diasDesdeCivil 2024 4 10) 1000000
      = .error () := rfl

/-- C4 (amended): when the cutoff (today minus the retention days) lies
within the representable date range date.min .. date.max, on a
well-partitioned raw zone (every ano=, mes=, dia= segment that the walk
meets parses as an integer, and matched day partitions are directories),
cleanup returns exactly the specification-side result: the removed set
is precisely the day-partition subtrees whose parsed date is strictly
before the cutoff, every day partition on or after the cutoff (or with
an invalid date) is kept verbatim, the removed-file count and freed byte
total are the exact sums over the removed subtrees, and every zone other
than the raw zone is untouched; a cutoff outside the representable range
instead raises OverflowError before anything is examined. -/
theorem limpeza_retencao (lago : Lago) (raw : List Arvore) (hoje diasRetencao : Int)
    (hmin : ordinalMin ≤ hoje - diasRetencao) (hmax : hoje - diasRetencao ≤ ordinalMax)
    (hraw : lagoLer lago (zonaDir "raw") = some raw)
    (h : bemParticionadoRaw raw = true) :
    limparDadosAntigos lago hoje diasRetencao =
      .ok ((specRaw (hoje - diasRetencao) raw).1,
           (specRaw (hoje - diasRetencao) raw).2.1,
           isoData (hoje - diasRetencao),
           dictDefinir lago (zonaDir "raw") (specRaw (hoje - diasRetencao) raw).2.2)
    ∧ ∀ z, z ≠ zonaDir "raw" →
        lagoLer (dictDefinir lago (zonaDir "raw") (specRaw (hoje - diasRetencao) raw).2.2) z
          = lagoLer lago z :=
  ⟨limparDadosAntigos_eq lago raw hoje diasRetencao hmin hmax hraw h,
   fun z hz => lagoLer_dictDefinir_ne lago (zonaDir "raw") z _ hz⟩

/-- C4 (witness): the retention scenario of the specification, with
partitions dated one hundred days and ten days before today and a
ninety-day retention; the cutoff lies inside the representable date
range and the hypotheses hold by computation. -/
theorem limpeza_retencao_witness :
    (ordinalMin ≤ diasDesdeCivil 2024 4 10 - 90
      ∧ diasDesdeCivil 2024 4 10 - 90 ≤ ordinalMax)
    ∧ lagoLer [("dados_brutos",
        [Arvore.pasta "getGuestChecks" [Arvore.pasta "ano=2024"
          [Arvore.pasta "mes=01" [Arvore.pasta "dia=01"
             [Arvore.arquivo "f1.json" 100, Arvore.arquivo "f2.json" 50]],
           Arvore.pasta "mes=03" [Arvore.pasta "dia=31" [Arvore.arquivo "f3.json" 70]]]]]),
       ("metadados", [Arvore.arquivo "m.json" 5])] (zonaDir "raw")
      = some [Arvore.pasta "getGuestChecks" [Arvore.pasta "ano=2024"
          [Arvore.pasta "mes=01" [Arvore.pasta "dia=01"
             [Arvore.arquivo "f1.json" 100, Arvore.arquivo "f2.json" 50]],
           Arvore.pasta "mes=03" [Arvore.pasta "dia=31" [Arvore.arquivo "f3.json" 70]]]]]
    ∧ bemParticionadoRaw
        [Arvore.pasta "getGuestChecks" [Arvore.pasta "ano=2024"
          [Arvore.pasta "mes=01" [Arvore.pasta "dia=01"
             [Arvore.arquivo "f1.json" 100, Arvore.arquivo "f2.json" 50]],
           Arvore.pasta "mes=03" [Arvore.pasta "dia=31" [Arvore.arquivo "f3.json" 70]]]]]
        = true
    ∧ limparDadosAntigos [("dados_brutos",
        [Arvore.pasta "getGuestChecks" [Arvore.pasta "ano=2024"
          [Arvore.pasta "mes=01" [Arvore.pasta "dia=01"
             [Arvore.arquivo "f1.json" 100, Arvore.arquivo "f2.json" 50]],
           Arvore.pasta "mes=03" [Arvore.pasta "dia=31" [Arvore.arquivo "f3.json" 70]]]]]),
       ("metadados", [Arvore.arquivo "m.json" 5])] (diasDesdeCivil 2024 4 10) 90 =
      .ok ((specRaw (diasDesdeCivil 2024 4 10 - 90)
            [Arvore.pasta "getGuestChecks" [Arvore.pasta "ano=2024"
              [Arvore.pasta "mes=01" [Arvore.pasta "dia=01"
                 [Arvore.arquivo "f1.json" 100, Arvore.arquivo "f2.json" 50]],
               Arvore.pasta "mes=03" [Arvore.pasta "dia=31"
                 [Arvore.arquivo "f3.json" 70]]]]]).1,
           (specRaw (diasDesdeCivil 2024 4 10 - 90)
            [Arvore.pasta "getGuestChecks" [Arvore.pasta "ano=2024"
              [Arvore.pasta "mes=01" [Arvore.pasta "dia=01"
                 [Arvore.arquivo "f1.json" 100, Arvore.arquivo "f2.json" 50]],
               Arvore.pasta "mes=03" [Arvore.pasta "dia=31"
                 [Arvore.arquivo "f3.json" 70]]]]]).2.1,
           isoData (diasDesdeCivil 2024 4 10 - 90),
           dictDefinir [("dados_brutos",
             [Arvore.pasta "getGuestChecks" [Arvore.pasta "ano=2024"
               [Arvore.pasta "mes=01" [Arvore.pasta "dia=01"
                  [Arvore.arquivo "f1.json" 100, Arvore.arquivo "f2.json" 50]],
                Arvore.pasta "mes=03" [Arvore.pasta "dia=31"
                  [Arvore.arquivo "f3.json" 70]]]]]),
            ("metadados", [Arvore.arquivo "m.json" 5])] (zonaDir "raw")
            (specRaw (diasDesdeCivil 2024 4 10 - 90)
              [Arvore.pasta "getGuestChecks" [Arvore.pasta "ano=2024"
                [Arvore.pasta "mes=01" [Arvore.pasta "dia=01"
                   [Arvore.arquivo "f1.json" 100, Arvore.arquivo "f2.json" 50]],
                 Arvore.pasta "mes=03" [Arvore.pasta "dia=31"
                   [Arvore.arquivo "f3.json" 70]]]]]).2.2) := by
  refine ⟨⟨by decide, by decide⟩, rfl, by decide, ?_⟩
  exact (limpeza_retencao
    [("dados_brutos",
        [Arvore.pasta "getGuestChecks" [Arvore.pasta "ano=2024"
          [Arvore.pasta "mes=01" [Arvore.pasta "dia=01"
             [Arvore.arquivo "f1.json" 100, Arvore.arquivo "f2.json" 50]],
           Arvore.pasta "mes=03" [Arvore.pasta "dia=31" [Arvore.arquivo "f3.json" 70]]]]]),
       ("metadados", [Arvore.arquivo "m.json" 5])]
    [Arvore.pasta "getGuestChecks" [Arvore.pasta "ano=2024"
      [Arvore.pasta "mes=01" [Arvore.pasta "dia=01"
         [Arvore.arquivo "f1.json" 100, Arvore.arquivo "f2.json" 50]],
       Arvore.pasta "mes=03" [Arvore.pasta "dia=31" [Arvore.arquivo "f3.json" 70]]]]]
    (diasDesdeCivil 2024 4 10) 90 (by decide) (by decide) rfl (by decide)).1

/-- C8 (counterexample): a raw-zone day directory whose dia= segment is
not an integer is not skipped with a warning: the int() call sits
outside the try block, so the ValueError aborts the whole cleanup. -/
theorem limpeza_aborta_contraexemplo :
    limparDadosAntigos
      [("dados_brutos", [Arvore.pasta "getGuestChecks" [Arvore.pasta "ano=2024"
        [Arvore.pasta "mes=01" [Arvore.pasta "dia=xx" []]]]])]
      (diasDesdeCivil 2024 4 10) 90
    = .error () := rfl

/-- C8 (amended): a day directory whose segments parse as integers but do
not form a valid calendar date is skipped with a warning, is not
deleted, and does not abort the cleanup walk (the ValueError of the date
constructor is inside the try block); a segment that does not parse as
an integer instead aborts the whole cleanup. -/
theorem limpeza_data_invalida (corte a m d : Int) (ep na nm nd : String)
    (resto : List Arvore)
    (hna : comecaCom na "ano=" = true) (hpa : pyInt (segmentoAposIgual na) = some a)
    (hnm : comecaCom nm "mes=" = true) (hpm : pyInt (segmentoAposIgual nm) = some m)
    (hnd : comecaCom nd "dia=" = true) (hpd : pyInt (segmentoAposIgual nd) = some d)
    (hdata : construirData a m d = none) :
    limparRaw corte [Arvore.pasta ep [Arvore.pasta na [Arvore.pasta nm
        [Arvore.pasta nd resto]]]]
      = .ok (0, 0, [Arvore.pasta ep [Arvore.pasta na [Arvore.pasta nm
          [Arvore.pasta nd resto]]]]) := by
  simp [limparRaw, limparNivelAno, limparNivelMes, limparNivelDia, limparPassoDia,
    nomeDe, hna, hpa, hnm, hpm, hnd, hpd, hdata]

/-- C8 (witness): the amended statement at a concrete partition dated
month thirteen, which integer-parses but is not a calendar date. -/
theorem limpeza_data_invalida_witness :
    (comecaCom "ano=2024" "ano=" = true)
    ∧ pyInt (segmentoAposIgual "ano=2024") = some 2024
    ∧ (comecaCom "mes=13" "mes=" = true)
    ∧ pyInt (segmentoAposIgual "mes=13") = some 13
    ∧ (comecaCom "dia=05" "dia=" = true)
    ∧ pyInt (segmentoAposIgual "dia=05") = some 5
    ∧ construirData 2024 13 5 = none
    ∧ limparRaw 0 [Arvore.pasta "getGuestChecks" [Arvore.pasta "ano=2024"
        [Arvore.pasta "mes=13" [Arvore.pasta "dia=05" [Arvore.arquivo "f.json" 10]]]]]
      = .ok (0, 0, [Arvore.pasta "getGuestChecks" [Arvore.pasta "ano=2024"
          [Arvore.pasta "mes=13" [Arvore.pasta "dia=05" [Arvore.arquivo "f.json" 10]]]]]) :=
  ⟨rfl, by decide, rfl, by decide, rfl, by decide, by decide,
   limpeza_data_invalida 0 2024 13 5 "getGuestChecks" "ano=2024" "mes=13" "dia=05"
     [Arvore.arquivo "f.json" 10] rfl (by decide) rfl (by decide) rfl (by decide)
     (by decide)⟩

/-- C10: the per-endpoint breakdown of the statistics report counts only
*.json files, while the per-zone figures and the grand total count every
file: hence when the raw zone holds at least one non-json file, the sum
of the per-endpoint counts is strictly below the raw zone figure; the
raw zone figure is the full recursive file count, and the grand total is
the sum of the per-zone figures. -/
theorem estatisticas_endpoints_estrito (lago : Lago) (raw : List Arvore)
    (hraw : lagoLer lago (zonaDir "raw") = some raw)
    (hnj : 0 < contarNaoJsonL raw) :
    ((obterEstatisticasDataLake lago).endpoints.map (fun p => p.2)).sum < contarArquivosL raw
    ∧ (obterEstatisticasDataLake lago).zonas.find? (fun p => p.1 == zonaDir "raw")
        = some (zonaDir "raw", contarArquivosL raw)
    ∧ (obterEstatisticasDataLake lago).totalArquivos
        = ((obterEstatisticasDataLake lago).zonas.map (fun p => p.2)).sum := by
  refine ⟨?_, ?_, rfl⟩
  · have hend : (obterEstatisticasDataLake lago).endpoints = dobrarEndpoints raw [] := by
      simp [obterEstatisticasDataLake, hraw]
    rw [hend]
    have h1 := soma_dobrarEndpoints raw [] (by simp)
    have h2 := contarDivididoL raw
    simp only [List.map_nil, List.sum_nil, Nat.zero_add] at h1
    omega
  · have hz : (obterEstatisticasDataLake lago).zonas = dobrarZonas lago estruturaPastas [] :=
      rfl
    rw [hz]
    rw [show estruturaPastas = ("raw", "dados_brutos") ::
        [("processed", "dados_processados"), ("schemas", "esquemas"),
         ("metadata", "metadados"), ("archive", "arquivo"), ("temp", "temporario")]
      from rfl]
    rw [dobrarZonas, List.foldl_cons]
    have hraw2 : lagoLer lago "dados_brutos" = some raw := hraw
    simp only [hraw2]
    rw [show dictDefinir ([] : List (String × Nat)) "dados_brutos" (contarArquivosL raw)
        = [("dados_brutos", contarArquivosL raw)] from by simp [dictDefinir]]
    rw [show List.foldl (fun acc2 p =>
          match lagoLer lago p.2 with
          | some filhos => dictDefinir acc2 p.2 (contarArquivosL filhos)
          | none => acc2) [("dados_brutos", contarArquivosL raw)]
          [("processed", "dados_processados"), ("schemas", "esquemas"),
           ("metadata", "metadados"), ("archive", "arquivo"), ("temp", "temporario")]
        = dobrarZonas lago
            [("processed", "dados_processados"), ("schemas", "esquemas"),
             ("metadata", "metadados"), ("archive", "arquivo"), ("temp", "temporario")]
            [("dados_brutos", contarArquivosL raw)] from rfl]
    rw [find?_dobrarZonas _ _ _ _ (by decide)]
    rw [List.find?_cons_of_pos _ (by rfl)]
    rfl

/-- C10 (witness): a raw zone with one endpoint directory holding a json
file and a non-json file; the per-endpoint sum is strictly below the raw
zone file count. -/
theorem estatisticas_endpoints_estrito_witness :
    lagoLer [("dados_brutos",
        [Arvore.pasta "getGuestChecks"
          [Arvore.arquivo "x.txt" 3, Arvore.arquivo "y.json" 4]])] (zonaDir "raw")
      = some [Arvore.pasta "getGuestChecks"
          [Arvore.arquivo "x.txt" 3, Arvore.arquivo "y.json" 4]]
    ∧ 0 < contarNaoJsonL [Arvore.pasta "getGuestChecks"
          [Arvore.arquivo "x.txt" 3, Arvore.arquivo "y.json" 4]]
    ∧ (((obterEstatisticasDataLake [("dados_brutos",
          [Arvore.pasta "getGuestChecks"
            [Arvore.arquivo "x.txt" 3, Arvore.arquivo "y.json" 4]])]).endpoints.map
            (fun p => p.2)).sum
        < contarArquivosL [Arvore.pasta "getGuestChecks"
            [Arvore.arquivo "x.txt" 3, Arvore.arquivo "y.json" 4]]) := by
  refine ⟨rfl, by decide, ?_⟩
  exact (estatisticas_endpoints_estrito
    [("dados_brutos",
      [Arvore.pasta "getGuestChecks"
        [Arvore.arquivo "x.txt" 3, Arvore.arquivo "y.json" 4]])]
    [Arvore.pasta "getGuestChecks"
      [Arvore.arquivo "x.txt" 3, Arvore.arquivo "y.json" 4]]
    rfl (by decide)).1

end DataLake
